import Mathlib

/-!
Mob movement core (`Game/src/Mob.cpp`).

A shallow embedding of `Mob::move`, `Mob::pickWaypoint`, `Mob::checkCollision`,
`Mob::processCollision` and `EuclideanDistance`.

Modelling conventions.

* A C++ `float` is an exact number of a linearly ordered field `K`, or the one
  not-a-number value `Flt.nan`.  Rounding and overflow are not modelled.  A
  quotient by zero is `Flt.nan`; every comparison with `Flt.nan` is false, as in
  IEEE arithmetic.  At every division of `Mob.cpp` the divisor is the length of
  the dividend, so the only quotient by zero that occurs is `0 / 0`.
* The square root is a parameter `sqrt : K → K`; theorems that need its laws
  assume `IsSqrt sqrt`, which `Real.sqrt` satisfies.
* Configuration data (stats, `deltaTSec`, `GAME_GRID_HEIGHT`) are numbers of `K`.
* A `const Vec2*` into the waypoint array is the index of the element; a
  `const Entity*` is the entity's identity together with the data read through it.
-/

set_option linter.unusedSectionVars false

namespace BB

/-- A `float`: an exact number, or not-a-number. -/
inductive Flt (K : Type) where
  | fin : K → Flt K
  | nan : Flt K
deriving DecidableEq

section Defs

variable {K : Type} [LinearOrderedField K]

/-- Float addition. -/
def Flt.add : Flt K → Flt K → Flt K
  | .fin a, .fin b => .fin (a + b)
  | _, _ => .nan

/-- Float subtraction. -/
def Flt.sub : Flt K → Flt K → Flt K
  | .fin a, .fin b => .fin (a - b)
  | _, _ => .nan

/-- Float multiplication. -/
def Flt.mul : Flt K → Flt K → Flt K
  | .fin a, .fin b => .fin (a * b)
  | _, _ => .nan

/-- Float division; a quotient by zero is not a number. -/
def Flt.div : Flt K → Flt K → Flt K
  | .fin a, .fin b => if b = 0 then .nan else .fin (a / b)
  | _, _ => .nan

/-- Float comparison `a < b`; false when either side is not a number. -/
def Flt.lt : Flt K → Flt K → Bool
  | .fin a, .fin b => decide (a < b)
  | _, _ => false

/-- Float comparison `a <= b`; false when either side is not a number. -/
def Flt.le : Flt K → Flt K → Bool
  | .fin a, .fin b => decide (a ≤ b)
  | _, _ => false

/-- Float comparison `a > b`. -/
def Flt.gt (a b : Flt K) : Bool := Flt.lt b a

/-- The function `std::max(a, b)`, which is `(a < b) ? b : a`. -/
def Flt.max (a b : Flt K) : Flt K := if Flt.lt a b then b else a

/-- The function `sqrt` of `math.h`: not a number on a negative argument. -/
def Flt.sqrt (sqrt : K → K) : Flt K → Flt K
  | .fin a => if a < 0 then .nan else .fin (sqrt a)
  | .nan => .nan

instance : Add (Flt K) := ⟨Flt.add⟩
instance : Sub (Flt K) := ⟨Flt.sub⟩
instance : Mul (Flt K) := ⟨Flt.mul⟩
instance : Div (Flt K) := ⟨Flt.div⟩

/-- The constant `FLT_MAX` of `float.h`, `(2 ^ 24 - 1) * 2 ^ 104`. -/
def FLT_MAX : K := 340282346638528859811704183484516925440

/-- A 2D point or vector of two floats. -/
structure Vec2 (K : Type) where
  x : Flt K
  y : Flt K
deriving DecidableEq

/-- The vector with the two given finite coordinates. -/
def Vec2.fin (a b : K) : Vec2 K := ⟨.fin a, .fin b⟩

/-- Modelled from the spec: `Vec2::operator+` of the absent `Vec2.h`, coordinate-wise. -/
def Vec2.add (a b : Vec2 K) : Vec2 K := ⟨a.x + b.x, a.y + b.y⟩

/-- Modelled from the spec: `Vec2::operator-` of the absent `Vec2.h`, coordinate-wise. -/
def Vec2.sub (a b : Vec2 K) : Vec2 K := ⟨a.x - b.x, a.y - b.y⟩

/-- Modelled from the spec: `Vec2::operator*(float)` of the absent `Vec2.h`, scalar scale. -/
def Vec2.scale (a : Vec2 K) (f : Flt K) : Vec2 K := ⟨a.x * f, a.y * f⟩

/-- Modelled from the spec: `Vec2::operator/(float)` of the absent `Vec2.h`. -/
def Vec2.sdiv (a : Vec2 K) (f : Flt K) : Vec2 K := ⟨a.x / f, a.y / f⟩

/-- Modelled from the spec: `Vec2::length` of the absent `Vec2.h`. -/
def Vec2.length (sqrt : K → K) (a : Vec2 K) : Flt K := Flt.sqrt sqrt (a.x * a.x + a.y * a.y)

/-- Modelled from the spec: `Vec2::distSqr` of the absent `Vec2.h`, the squared distance. -/
def Vec2.distSqr (a b : Vec2 K) : Flt K :=
  (a.x - b.x) * (a.x - b.x) + (a.y - b.y) * (a.y - b.y)

/-- Modelled from the spec: `Vec2::normalize` of the absent `Vec2.h`, the vector over
its length. -/
def Vec2.normalize (sqrt : K → K) (a : Vec2 K) : Vec2 K := a.sdiv (a.length sqrt)

instance : Add (Vec2 K) := ⟨Vec2.add⟩
instance : Sub (Vec2 K) := ⟨Vec2.sub⟩

/-- The function `EuclideanDistance` of `Mob.cpp`. -/
def EuclideanDistance (sqrt : K → K) (a b : Vec2 K) : Flt K :=
  Flt.sqrt sqrt ((a.x - b.x) * (a.x - b.x) + (a.y - b.y) * (a.y - b.y))

/-- The stats a mob reads: `getSpeed`, `getSize`, `getMass`. -/
structure Stats (K : Type) where
  speed : K
  size : K
  mass : K
deriving DecidableEq

/-- What is read through a `const Entity*`: the identity of the entity (its address),
its position and its stats. -/
structure Entity (K : Type) where
  id : Nat
  m_Pos : Vec2 K
  m_Stats : Stats K
deriving DecidableEq

/-- The state of a `Mob`. -/
structure Mob (K : Type) where
  id : Nat
  m_Stats : Stats K
  m_Pos : Vec2 K
  m_bNorth : Bool
  m_pTarget : Option (Entity K)
  m_pWaypoint : Option Nat
  m_velocity : Vec2 K
deriving DecidableEq

/-- The test of `pickWaypoint` that filters out a waypoint behind, or barely in front
of, the position. -/
def isBehind (pos : Vec2 K) (north : Bool) (pt : Vec2 K) : Bool :=
  let yOffset := pt.y - pos.y
  (north && yOffset.lt (.fin 1)) || (!north && yOffset.gt (.fin (-1)))

/-- The loop of `pickWaypoint` over the waypoints from index `i` on, with the loop
variables `smallestDistSq` and `pClosest`. -/
def pickWaypointLoop (pos : Vec2 K) (north : Bool) :
    List (Vec2 K) → Nat → Flt K → Option Nat → Option Nat
  | [], _, _, pClosest => pClosest
  | pt :: rest, i, smallestDistSq, pClosest =>
    if isBehind pos north pt then
      pickWaypointLoop pos north rest (i + 1) smallestDistSq pClosest
    else
      let distSq := pos.distSqr pt
      if distSq.lt smallestDistSq then
        pickWaypointLoop pos north rest (i + 1) distSq (some i)
      else
        pickWaypointLoop pos north rest (i + 1) smallestDistSq pClosest

/-- The method `Mob::pickWaypoint`, for a mob at `pos` on side `north`, over the
waypoints of the game. -/
def pickWaypoint (waypoints : List (Vec2 K)) (pos : Vec2 K) (north : Bool) : Option Nat :=
  pickWaypointLoop pos north waypoints 0 (.fin FLT_MAX) none

/-- The roster loops of `checkCollision`: scan one roster for the mob `m`, appending to
`collidingMobs`. -/
def scanRoster (sqrt : K → K) (m : Mob K) (ahead : Vec2 K) :
    List (Entity K) → List (Entity K) → List (Entity K)
  | [], collidingMobs => collidingMobs
  | pOtherMob :: rest, collidingMobs =>
    if m.id = pOtherMob.id then
      scanRoster sqrt m ahead rest collidingMobs
    else if (EuclideanDistance sqrt ahead pOtherMob.m_Pos).lt
        (.fin (m.m_Stats.size + pOtherMob.m_Stats.size)) then
      scanRoster sqrt m ahead rest (collidingMobs ++ [pOtherMob])
    else
      scanRoster sqrt m ahead rest collidingMobs

/-- The projected point `m_Pos + ((m_velocity / m_velocity.length()) * deltaTSec * 2)`
of `checkCollision` and `processCollision`. -/
def aheadPoint (sqrt : K → K) (deltaTSec : K) (m : Mob K) : Vec2 K :=
  m.m_Pos + ((m.m_velocity.sdiv (m.m_velocity.length sqrt)).scale (.fin deltaTSec)).scale (.fin 2)

/-- The method `Mob::checkCollision`; `northMobs` and `southMobs` are the rosters
`getPlayer(true).getMobs()` and `getPlayer(false).getMobs()`. -/
def checkCollision (sqrt : K → K) (northMobs southMobs : List (Entity K)) (deltaTSec : K)
    (m : Mob K) : List (Entity K) :=
  let ahead := aheadPoint sqrt deltaTSec m
  scanRoster sqrt m ahead southMobs (scanRoster sqrt m ahead northMobs [])

/-- The method `Mob::processCollision`. -/
def processCollision (sqrt : K → K) (otherMob : Entity K) (deltaTSec : K) (m : Mob K) : Mob K :=
  if m.m_Stats.mass < otherMob.m_Stats.mass then
    let ahead := aheadPoint sqrt deltaTSec m
    let steeringForce := (ahead - otherMob.m_Pos).normalize sqrt
    let velocityChange := (steeringForce.scale (.fin deltaTSec)).scale (.fin 1000)
    let velocity := m.m_velocity + velocityChange
    if (velocity.length sqrt).gt (.fin m.m_Stats.speed) then
      { m with m_velocity := (velocity.normalize sqrt).scale (.fin m.m_Stats.speed) }
    else
      { m with m_velocity := velocity }
  else
    m

/-- The target that `move` heads for, when `bMoveToTarget` is set: the mob has a target
and both are on the same side of the river.  `H` is `GAME_GRID_HEIGHT` of the absent
`Constants.h`, and `H / 2` is the value of `(GAME_GRID_HEIGHT / 2)`. -/
def chaseTarget (H : K) (m : Mob K) : Option (Entity K) :=
  match m.m_pTarget with
  | none => none
  | some t =>
    let imTop := m.m_Pos.y.lt (.fin (H / 2))
    let otherTop := t.m_Pos.y.lt (.fin (H / 2))
    if imTop = otherTop then some t else none

/-- The waypoint behind a `const Vec2*` into the waypoint array. -/
def derefWaypoint (waypoints : List (Vec2 K)) (i : Nat) : Vec2 K :=
  waypoints.getD i ⟨.nan, .nan⟩

/-- The expression `m_pWaypoint ? *m_pWaypoint : m_Pos`. -/
def waypointOrPos (waypoints : List (Vec2 K)) (m : Mob K) : Vec2 K :=
  match m.m_pWaypoint with
  | some i => derefWaypoint waypoints i
  | none => m.m_Pos

/-- The first part of `move`: the choice of `destPos`, with its effect on
`m_pWaypoint`. -/
def chooseDest (H : K) (waypoints : List (Vec2 K)) (m : Mob K) : Mob K × Vec2 K :=
  match chaseTarget H m with
  | some t => ({ m with m_pWaypoint := none }, t.m_Pos)
  | none =>
    let m1 : Mob K :=
      match m.m_pWaypoint with
      | none => { m with m_pWaypoint := pickWaypoint waypoints m.m_Pos m.m_bNorth }
      | some _ => m
    (m1, waypointOrPos waypoints m1)

/-- The velocity `direction * speed` toward `destPos` that `move` sets. -/
def headFor (sqrt : K → K) (destPos : Vec2 K) (m : Mob K) : Mob K :=
  let moveVec := destPos - m.m_Pos
  let direction := moveVec.sdiv (moveVec.length sqrt)
  { m with m_velocity := direction.scale (.fin m.m_Stats.speed) }

/-- The steering loop of `move`: `processCollision` for each entity `checkCollision`
returned, in order. -/
def steer (sqrt : K → K) (northMobs southMobs : List (Entity K)) (deltaTSec : K)
    (m : Mob K) : Mob K :=
  (checkCollision sqrt northMobs southMobs deltaTSec m).foldl
    (fun acc e => processCollision sqrt e deltaTSec acc) m

/-- The mob after the steering loop of `move`. -/
def moveSteered (sqrt : K → K) (H : K) (waypoints : List (Vec2 K))
    (northMobs southMobs : List (Entity K)) (deltaTSec : K) (m : Mob K) : Mob K :=
  let m1 := (chooseDest H waypoints m).1
  let destPos := (chooseDest H waypoints m).2
  steer sqrt northMobs southMobs deltaTSec (headFor sqrt destPos m1)

/-- The value of `distanceRemaining` at the test `offset.length() <= distanceRemaining`. -/
def moveRemaining (sqrt : K → K) (H : K) (waypoints : List (Vec2 K)) (m : Mob K) : Flt K :=
  let m1 := (chooseDest H waypoints m).1
  let destPos := (chooseDest H waypoints m).2
  let moveVec := destPos - m1.m_Pos
  let distanceRemaining := moveVec.length sqrt
  match chaseTarget H m with
  | some t =>
    Flt.max (.fin 0) (distanceRemaining - .fin ((m.m_Stats.size + t.m_Stats.size) / 2))
  | none => distanceRemaining

/-- The continuation of `move` after a waypoint was reached: pick the next waypoint and
step toward it. -/
def secondLeg (sqrt : K → K) (waypoints : List (Vec2 K)) (deltaTSec : K)
    (distanceRemaining : Flt K) (m : Mob K) : Mob K :=
  let m5 : Mob K := { m with m_pWaypoint := pickWaypoint waypoints m.m_Pos m.m_bNorth }
  let destPos := waypointOrPos waypoints m5
  let m6 := headFor sqrt destPos m5
  let offset := m6.m_velocity.scale (.fin deltaTSec)
  { m6 with m_Pos := m6.m_Pos + (offset.sdiv (offset.length sqrt)).scale distanceRemaining }

/-- The method `Mob::move`. -/
def move (sqrt : K → K) (H : K) (waypoints : List (Vec2 K))
    (northMobs southMobs : List (Entity K)) (deltaTSec : K) (m : Mob K) : Mob K :=
  let m3 := moveSteered sqrt H waypoints northMobs southMobs deltaTSec m
  let offset := m3.m_velocity.scale (.fin deltaTSec)
  let distanceRemaining := moveRemaining sqrt H waypoints m
  if (offset.length sqrt).le distanceRemaining then
    { m3 with m_Pos := m3.m_Pos + offset }
  else
    let m4 : Mob K :=
      { m3 with m_Pos := m3.m_Pos + (offset.sdiv (offset.length sqrt)).scale distanceRemaining }
    match m4.m_pWaypoint with
    | some _ => secondLeg sqrt waypoints deltaTSec distanceRemaining m4
    | none => m4

/-- The squared distance between the points `(ax, ay)` and `(bx, by)`. -/
def sqDist (ax ay bx bY : K) : K := (ax - bx) * (ax - bx) + (ay - bY) * (ay - bY)

/-- A waypoint is ahead of a position: beyond it along the lane axis by at least one
unit, to larger `y` for a north mob and to smaller `y` for a south mob. -/
def Ahead (pos : Vec2 K) (north : Bool) (pt : Vec2 K) : Prop :=
  ∃ py wy, pos.y = Flt.fin py ∧ pt.y = Flt.fin wy ∧
    (north = true → 1 ≤ wy - py) ∧ (north = false → wy - py ≤ -1)

/-- The laws of the real square root that the proofs use; `Real.sqrt` satisfies them. -/
structure IsSqrt (sqrt : K → K) : Prop where
  nonneg : ∀ a, 0 ≤ a → 0 ≤ sqrt a
  mul_self : ∀ a, 0 ≤ a → sqrt a * sqrt a = a

/-- The Euclidean length of the vector `(x, y)`. -/
def len (sqrt : K → K) (x y : K) : K := sqrt (x * x + y * y)

/-- What another mob reads of the mob `m` through a `const Entity*`. -/
def Mob.asEntity (m : Mob K) : Entity K := ⟨m.id, m.m_Pos, m.m_Stats⟩

/-- The overlap test of the spec for the collision scan: the entity is at a position
`(ex, ey)` whose Euclidean distance from the projected point `(ax, ay)` is less than the
sum of the two sizes. -/
def overlapsAhead (sqrt : K → K) (ax ay size : K) (e : Entity K) : Bool :=
  match e.m_Pos with
  | ⟨.fin ex, .fin ey⟩ => decide (len sqrt (ax - ex) (ay - ey) < size + e.m_Stats.size)
  | _ => false

/-- A north mob at `(0, 0)` of speed 10, size 1 and mass 1, with no target and no
stored waypoint. -/
def exMob : Mob K := ⟨0, ⟨10, 1, 1⟩, Vec2.fin 0 0, true, none, none, Vec2.fin 0 0⟩

/-- A north mob at `(0, 0)` of speed 1, size 2 and mass 1, whose target of size 2 is at
`(0, 1)`. -/
def exChaser : Mob K :=
  ⟨0, ⟨1, 2, 1⟩, Vec2.fin 0 0, true, some ⟨1, Vec2.fin 0 1, ⟨1, 2, 1⟩⟩, none, Vec2.fin 0 0⟩

/-- A north mob at `(0, 0)` of speed 2 and size 1, whose target of size 1 is at `(0, 5)`. -/
def exScenario : Mob K :=
  ⟨0, ⟨2, 1, 1⟩, Vec2.fin 0 0, true, some ⟨1, Vec2.fin 0 5, ⟨2, 1, 1⟩⟩, none, Vec2.fin 0 0⟩

/-- An entity of mass 2 at `(0, 5)`. -/
def exHeavy : Entity K := ⟨1, Vec2.fin 0 5, ⟨10, 1, 2⟩⟩

/-- The mirror image of a point in the line `y = c`, across the lane axis. -/
def mirrorY (c : K) (v : Vec2 K) : Vec2 K := ⟨v.x, Flt.fin (2 * c) - v.y⟩

/-- The mob after the first position update of `move` (`m_Pos += offset`, or the clamped
`m_Pos += (offset / offset.length()) * distanceRemaining`), before the test of
`m_pWaypoint` and any second step. -/
def moveFirstStep (sqrt : K → K) (H : K) (waypoints : List (Vec2 K))
    (northMobs southMobs : List (Entity K)) (deltaTSec : K) (m : Mob K) : Mob K :=
  let m3 := moveSteered sqrt H waypoints northMobs southMobs deltaTSec m
  let offset := m3.m_velocity.scale (.fin deltaTSec)
  let distanceRemaining := moveRemaining sqrt H waypoints m
  if (offset.length sqrt).le distanceRemaining then
    { m3 with m_Pos := m3.m_Pos + offset }
  else
    { m3 with m_Pos := m3.m_Pos + (offset.sdiv (offset.length sqrt)).scale distanceRemaining }

/-- An entity of mass 2 and size 1 at `(0, 0)`. -/
def exOverlap : Entity K := ⟨3, Vec2.fin 0 0, ⟨10, 1, 2⟩⟩

/-- A north mob at `(0, 0)` of speed 1 and size 2 whose target of size 2 is at the
same position `(0, 0)`. -/
def exOnTarget : Mob K :=
  ⟨0, ⟨1, 2, 1⟩, Vec2.fin 0 0, true, some ⟨1, Vec2.fin 0 0, ⟨1, 2, 1⟩⟩, none, Vec2.fin 0 0⟩

/-- A north mob at `(0, 0)` of speed 750, size 2 and mass 1, with no target and no
stored waypoint. -/
def exRunner : Mob K := ⟨0, ⟨750, 2, 1⟩, Vec2.fin 0 0, true, none, none, Vec2.fin 0 0⟩

/-- The mob `exRunner` with a target of size 2 at `(0, 100)`. -/
def exRunnerChase : Mob K :=
  ⟨0, ⟨750, 2, 1⟩, Vec2.fin 0 0, true, some ⟨2, Vec2.fin 0 100, ⟨1, 2, 1⟩⟩, none,
    Vec2.fin 0 0⟩

/-- An entity of size 2 and mass 2 at `(-3, 2)`. -/
def exObstacle : Entity K := ⟨1, Vec2.fin (-3) 2, ⟨1, 2, 2⟩⟩

/-- A mob at `(0, 0)` of speed 375 and mass 1 that moves along the lane at full speed. -/
def exSteered : Mob K := ⟨0, ⟨375, 1, 1⟩, Vec2.fin 0 0, true, none, none, Vec2.fin 0 375⟩

/-- An entity of mass 2 at `(-31/20, 1)`. -/
def exLeft : Entity K := ⟨1, Vec2.fin (-31 / 20) 1, ⟨1, 1, 2⟩⟩

/-- An entity of mass 2 at `(11/10, 1)`. -/
def exRight : Entity K := ⟨2, Vec2.fin (11 / 10) 1, ⟨1, 1, 2⟩⟩

end Defs

end BB

namespace BB

section Basics

variable {K : Type} [LinearOrderedField K]

@[simp] theorem Flt.fin_add_fin (a b : K) : (Flt.fin a + Flt.fin b : Flt K) = Flt.fin (a + b) := rfl

@[simp] theorem Flt.fin_sub_fin (a b : K) : (Flt.fin a - Flt.fin b : Flt K) = Flt.fin (a - b) := rfl

@[simp] theorem Flt.fin_mul_fin (a b : K) : (Flt.fin a * Flt.fin b : Flt K) = Flt.fin (a * b) := rfl

theorem Flt.fin_div_fin (a b : K) :
    (Flt.fin a / Flt.fin b : Flt K) = if b = 0 then Flt.nan else Flt.fin (a / b) := rfl

@[simp] theorem Flt.nan_add (a : Flt K) : (Flt.nan + a : Flt K) = Flt.nan := rfl

@[simp] theorem Flt.add_nan (a : Flt K) : (a + Flt.nan : Flt K) = Flt.nan := by cases a <;> rfl

@[simp] theorem Flt.nan_sub (a : Flt K) : (Flt.nan - a : Flt K) = Flt.nan := rfl

@[simp] theorem Flt.sub_nan (a : Flt K) : (a - Flt.nan : Flt K) = Flt.nan := by cases a <;> rfl

@[simp] theorem Flt.nan_mul (a : Flt K) : (Flt.nan * a : Flt K) = Flt.nan := rfl

@[simp] theorem Flt.mul_nan (a : Flt K) : (a * Flt.nan : Flt K) = Flt.nan := by cases a <;> rfl

@[simp] theorem Flt.nan_div (a : Flt K) : (Flt.nan / a : Flt K) = Flt.nan := rfl

@[simp] theorem Flt.div_nan (a : Flt K) : (a / Flt.nan : Flt K) = Flt.nan := by cases a <;> rfl

@[simp] theorem Flt.lt_fin_fin (a b : K) : Flt.lt (Flt.fin a) (Flt.fin b) = decide (a < b) := rfl

@[simp] theorem Flt.le_fin_fin (a b : K) : Flt.le (Flt.fin a) (Flt.fin b) = decide (a ≤ b) := rfl

@[simp] theorem Flt.nan_lt (a : Flt K) : Flt.lt Flt.nan a = false := rfl

@[simp] theorem Flt.lt_nan (a : Flt K) : Flt.lt a Flt.nan = false := by cases a <;> rfl

@[simp] theorem Flt.nan_le (a : Flt K) : Flt.le Flt.nan a = false := rfl

@[simp] theorem Flt.le_nan (a : Flt K) : Flt.le a Flt.nan = false := by cases a <;> rfl

theorem Flt.add_eq_fin {a b : Flt K} {c : K} (h : a + b = Flt.fin c) :
    ∃ x y, a = Flt.fin x ∧ b = Flt.fin y ∧ c = x + y := by
  cases a <;> cases b <;> simp at h
  exact ⟨_, _, rfl, rfl, h.symm⟩

theorem Flt.sub_eq_fin {a b : Flt K} {c : K} (h : a - b = Flt.fin c) :
    ∃ x y, a = Flt.fin x ∧ b = Flt.fin y ∧ c = x - y := by
  cases a <;> cases b <;> simp at h
  exact ⟨_, _, rfl, rfl, h.symm⟩

theorem Flt.mul_eq_fin {a b : Flt K} {c : K} (h : a * b = Flt.fin c) :
    ∃ x y, a = Flt.fin x ∧ b = Flt.fin y ∧ c = x * y := by
  cases a <;> cases b <;> simp at h
  exact ⟨_, _, rfl, rfl, h.symm⟩

theorem Flt.div_eq_fin {a b : Flt K} {c : K} (h : a / b = Flt.fin c) :
    ∃ x y, a = Flt.fin x ∧ b = Flt.fin y ∧ y ≠ 0 ∧ c = x / y := by
  cases a <;> cases b <;> simp [Flt.fin_div_fin] at h
  rename_i x y
  by_cases hy : y = 0
  · simp [hy] at h
  · simp [hy] at h
    exact ⟨_, _, rfl, rfl, hy, h.symm⟩

theorem Flt.lt_eq_true {a b : Flt K} (h : Flt.lt a b = true) :
    ∃ x y, a = Flt.fin x ∧ b = Flt.fin y ∧ x < y := by
  cases a <;> cases b <;> simp at h
  exact ⟨_, _, rfl, rfl, h⟩

theorem Flt.le_eq_true {a b : Flt K} (h : Flt.le a b = true) :
    ∃ x y, a = Flt.fin x ∧ b = Flt.fin y ∧ x ≤ y := by
  cases a <;> cases b <;> simp at h
  exact ⟨_, _, rfl, rfl, h⟩

@[simp] theorem Vec2.fin_x (a b : K) : (Vec2.fin a b).x = Flt.fin a := rfl

@[simp] theorem Vec2.fin_y (a b : K) : (Vec2.fin a b).y = Flt.fin b := rfl

@[simp] theorem Vec2.add_x (a b : Vec2 K) : (a + b).x = a.x + b.x := rfl

@[simp] theorem Vec2.add_y (a b : Vec2 K) : (a + b).y = a.y + b.y := rfl

@[simp] theorem Vec2.sub_x (a b : Vec2 K) : (a - b).x = a.x - b.x := rfl

@[simp] theorem Vec2.sub_y (a b : Vec2 K) : (a - b).y = a.y - b.y := rfl

theorem Vec2.eq_fin {v : Vec2 K} {a b : K} (hx : v.x = Flt.fin a) (hy : v.y = Flt.fin b) :
    v = Vec2.fin a b := by
  cases v
  simp only [Vec2.fin] at *
  rw [hx, hy]

end Basics

end BB

namespace BB

section PickWaypoint

variable {K : Type} [LinearOrderedField K]

/-- A waypoint passes the filter of `pickWaypoint` and has a finite squared distance
exactly when everything is finite and the waypoint is ahead. -/
theorem isBehind_false_iff (pos pt : Vec2 K) (north : Bool) (d : K) :
    (isBehind pos north pt = false ∧ pos.distSqr pt = Flt.fin d) ↔
      ∃ px py wx wy, pos = Vec2.fin px py ∧ pt = Vec2.fin wx wy ∧ d = sqDist px py wx wy ∧
        (north = true → 1 ≤ wy - py) ∧ (north = false → wy - py ≤ -1) := by
  constructor
  · rintro ⟨hb, hd⟩
    obtain ⟨a, b, ha, hb2, rfl⟩ := Flt.add_eq_fin hd
    obtain ⟨a1, a2, ha1, ha2, rfl⟩ := Flt.mul_eq_fin ha
    obtain ⟨b1, b2, hb1, hb3, rfl⟩ := Flt.mul_eq_fin hb2
    obtain ⟨px, wx, hpx, hwx, rfl⟩ := Flt.sub_eq_fin ha1
    obtain ⟨py, wy, hpy, hwy, rfl⟩ := Flt.sub_eq_fin hb1
    rw [hpx, hwx] at ha2
    rw [hpy, hwy] at hb3
    simp only [Flt.fin_sub_fin, Flt.fin.injEq] at ha2 hb3
    refine ⟨px, py, wx, wy, Vec2.eq_fin hpx hpy, Vec2.eq_fin hwx hwy, ?_, ?_, ?_⟩
    · rw [← ha2, ← hb3]; rfl
    · intro hn
      subst hn
      simp [isBehind, hpy, hwy, Flt.gt] at hb
      linarith
    · intro hn
      subst hn
      simp [isBehind, hpy, hwy, Flt.gt] at hb
      linarith
  · rintro ⟨px, py, wx, wy, rfl, rfl, rfl, hn, hs⟩
    refine ⟨?_, ?_⟩
    · cases north
      · have := hs rfl
        simp [isBehind, Flt.gt]
        linarith
      · have := hn rfl
        simp [isBehind, Flt.gt]
        linarith
    · simp [Vec2.distSqr, sqDist]

/-- The loop of `pickWaypoint`: either no remaining waypoint beats the running minimum
and `pClosest` is returned, or the first nearest passing waypoint is returned. -/
theorem pickWaypointLoop_spec (pos : Vec2 K) (north : Bool) (l : List (Vec2 K)) :
    ∀ (i : Nat) (s : K) (c : Option Nat),
      (pickWaypointLoop pos north l i (Flt.fin s) c = c ∧
        ∀ pt ∈ l, ∀ d, isBehind pos north pt = false → pos.distSqr pt = Flt.fin d → s ≤ d) ∨
      (∃ j pt d, l[j]? = some pt ∧ pickWaypointLoop pos north l i (Flt.fin s) c = some (i + j) ∧
        isBehind pos north pt = false ∧ pos.distSqr pt = Flt.fin d ∧ d < s ∧
        ∀ k pk dk, l[k]? = some pk → isBehind pos north pk = false →
          pos.distSqr pk = Flt.fin dk → d ≤ dk ∧ (k < j → d < dk)) := by
  induction l with
  | nil =>
    intro i s c
    left
    exact ⟨rfl, by simp⟩
  | cons pt rest ih =>
    intro i s c
    by_cases hb : isBehind pos north pt = true
    · have hstep : pickWaypointLoop pos north (pt :: rest) i (Flt.fin s) c
          = pickWaypointLoop pos north rest (i + 1) (Flt.fin s) c := by
        simp [pickWaypointLoop, hb]
      rcases ih (i + 1) s c with ⟨hr, hall⟩ | ⟨j, pj, d, hj, hr, hbj, hdj, hlt, hmin⟩
      · left
        refine ⟨by rw [hstep, hr], ?_⟩
        intro q hq dq hbq hdq
        rcases List.mem_cons.mp hq with rfl | hq
        · rw [hb] at hbq; cases hbq
        · exact hall q hq dq hbq hdq
      · right
        refine ⟨j + 1, pj, d, by simpa using hj, by rw [hstep, hr]; congr 1; omega,
          hbj, hdj, hlt, ?_⟩
        intro k pk dk hk hbk hdk
        cases k with
        | zero =>
          simp at hk
          subst hk
          rw [hb] at hbk; cases hbk
        | succ k =>
          simp at hk
          obtain ⟨h1, h2⟩ := hmin k pk dk hk hbk hdk
          exact ⟨h1, fun hkj => h2 (by omega)⟩
    · have hb : isBehind pos north pt = false := by simpa using hb
      by_cases hlt : (pos.distSqr pt).lt (Flt.fin s) = true
      · obtain ⟨d, s2, hd, hs2, hds⟩ := Flt.lt_eq_true hlt
        cases hs2
        have hstep : pickWaypointLoop pos north (pt :: rest) i (Flt.fin s) c
            = pickWaypointLoop pos north rest (i + 1) (Flt.fin d) (some i) := by
          simp [pickWaypointLoop, hb, hlt, ← hd]
        right
        rcases ih (i + 1) d (some i) with ⟨hr, hall⟩ | ⟨j, pj, d2, hj, hr, hbj, hdj, hlt2, hmin⟩
        · refine ⟨0, pt, d, by simp, by rw [hstep, hr]; rfl, hb, hd, hds, ?_⟩
          intro k pk dk hk hbk hdk
          cases k with
          | zero =>
            simp at hk
            subst hk
            rw [hd] at hdk
            cases hdk
            exact ⟨le_refl _, fun h => absurd h (by omega)⟩
          | succ k =>
            simp at hk
            exact ⟨hall pk (List.mem_iff_getElem?.mpr ⟨k, hk⟩) dk hbk hdk, fun h => absurd h (by omega)⟩
        · refine ⟨j + 1, pj, d2, by simpa using hj, by rw [hstep, hr]; congr 1; omega,
            hbj, hdj, lt_trans hlt2 hds, ?_⟩
          intro k pk dk hk hbk hdk
          cases k with
          | zero =>
            simp at hk
            subst hk
            rw [hd] at hdk
            cases hdk
            exact ⟨le_of_lt hlt2, fun _ => hlt2⟩
          | succ k =>
            simp at hk
            obtain ⟨h1, h2⟩ := hmin k pk dk hk hbk hdk
            exact ⟨h1, fun hkj => h2 (by omega)⟩
      · have hlt : (pos.distSqr pt).lt (Flt.fin s) = false := by simpa using hlt
        have hstep : pickWaypointLoop pos north (pt :: rest) i (Flt.fin s) c
            = pickWaypointLoop pos north rest (i + 1) (Flt.fin s) c := by
          simp [pickWaypointLoop, hb, hlt]
        have hpt : ∀ dk, pos.distSqr pt = Flt.fin dk → s ≤ dk := by
          intro dk hdk
          rw [hdk] at hlt
          simpa using hlt
        rcases ih (i + 1) s c with ⟨hr, hall⟩ | ⟨j, pj, d, hj, hr, hbj, hdj, hlt2, hmin⟩
        · left
          refine ⟨by rw [hstep, hr], ?_⟩
          intro q hq dq hbq hdq
          rcases List.mem_cons.mp hq with rfl | hq
          · exact hpt dq hdq
          · exact hall q hq dq hbq hdq
        · right
          refine ⟨j + 1, pj, d, by simpa using hj, by rw [hstep, hr]; congr 1; omega,
            hbj, hdj, hlt2, ?_⟩
          intro k pk dk hk hbk hdk
          cases k with
          | zero =>
            simp at hk
            subst hk
            have := hpt dk hdk
            exact ⟨le_of_lt (lt_of_lt_of_le hlt2 this), fun _ => lt_of_lt_of_le hlt2 this⟩
          | succ k =>
            simp at hk
            obtain ⟨h1, h2⟩ := hmin k pk dk hk hbk hdk
            exact ⟨h1, fun hkj => h2 (by omega)⟩

end PickWaypoint

end BB

namespace BB

section PickWaypointClaims

variable {K : Type} [LinearOrderedField K]

/-- C1 (waypoint admissibility): when `pickWaypoint` returns a waypoint `w`, the lane-axis
coordinates of `w` and of the mob are numbers with `w.y - pos.y ≥ 1` for a north mob and
`w.y - pos.y ≤ -1` for a south mob; so `w` is never at the mob's own lane coordinate. -/
theorem pickWaypoint_admissible (waypoints : List (Vec2 K)) (pos : Vec2 K) (north : Bool)
    (i : Nat) (h : pickWaypoint waypoints pos north = some i) :
    ∃ w py wy, waypoints[i]? = some w ∧ pos.y = Flt.fin py ∧ w.y = Flt.fin wy ∧
      (north = true → 1 ≤ wy - py) ∧ (north = false → wy - py ≤ -1) ∧ wy ≠ py := by
  unfold pickWaypoint at h
  rcases pickWaypointLoop_spec pos north waypoints 0 FLT_MAX none with
    ⟨hr, _⟩ | ⟨j, pt, d, hj, hr, hb, hd, _, _⟩
  · rw [hr] at h; cases h
  · rw [hr] at h
    have hij : j = i := by simpa using h
    subst hij
    obtain ⟨px, py, wx, wy, rfl, rfl, _, hn, hs⟩ := (isBehind_false_iff pos pt north d).mp ⟨hb, hd⟩
    refine ⟨Vec2.fin wx wy, py, wy, hj, rfl, rfl, hn, hs, ?_⟩
    intro heq
    cases north
    · have := hs rfl
      rw [heq] at this
      linarith
    · have := hn rfl
      rw [heq] at this
      linarith

/-- C1, at a concrete input: the waypoint 10 units ahead of a north mob is selected. -/
theorem pickWaypoint_admissible_witness :
    pickWaypoint [Vec2.fin 0 (-3), Vec2.fin 0 10] (Vec2.fin (0 : ℚ) 0) true = some 1 ∧
    ∃ w py wy, [Vec2.fin 0 (-3), Vec2.fin (0 : ℚ) 10][1]? = some w ∧
      (Vec2.fin (0 : ℚ) 0).y = Flt.fin py ∧ w.y = Flt.fin wy ∧
      (true = true → 1 ≤ wy - py) ∧ (true = false → wy - py ≤ -1) ∧ wy ≠ py :=
  ⟨by norm_num [pickWaypoint, pickWaypointLoop, isBehind, Vec2.distSqr, Flt.gt, FLT_MAX],
    pickWaypoint_admissible _ _ _ _
      (by norm_num [pickWaypoint, pickWaypointLoop, isBehind, Vec2.distSqr, Flt.gt, FLT_MAX])⟩

/-- C2 (nearest waypoint, first found wins): when `pickWaypoint` returns the waypoint
`w = (wx, wy)` at index `i`, no waypoint of the list that is ahead of the mob is strictly
nearer (in squared distance) than `w`, and every waypoint ahead of the mob at an index
before `i` is strictly farther than `w`. -/
theorem pickWaypoint_nearest_first (waypoints : List (Vec2 K)) (pos : Vec2 K) (north : Bool)
    (i : Nat) (h : pickWaypoint waypoints pos north = some i) :
    ∃ px py wx wy, pos = Vec2.fin px py ∧ waypoints[i]? = some (Vec2.fin wx wy) ∧
      ∀ j ux uy, waypoints[j]? = some (Vec2.fin ux uy) → Ahead pos north (Vec2.fin ux uy) →
        ¬ (sqDist px py ux uy < sqDist px py wx wy) ∧
        (j < i → sqDist px py wx wy < sqDist px py ux uy) := by
  unfold pickWaypoint at h
  rcases pickWaypointLoop_spec pos north waypoints 0 FLT_MAX none with
    ⟨hr, _⟩ | ⟨j, pt, d, hj, hr, hb, hd, _, hmin⟩
  · rw [hr] at h; cases h
  · rw [hr] at h
    have hij : j = i := by simpa using h
    subst hij
    obtain ⟨px, py, wx, wy, rfl, rfl, rfl, _, _⟩ :=
      (isBehind_false_iff pos pt north d).mp ⟨hb, hd⟩
    refine ⟨px, py, wx, wy, rfl, hj, ?_⟩
    intro k ux uy hk ⟨qy, vy, hqy, hvy, hn, hs⟩
    simp only [Vec2.fin_y, Flt.fin.injEq] at hqy hvy
    subst hqy hvy
    have hc := (isBehind_false_iff (Vec2.fin px py) (Vec2.fin ux uy) north
      (sqDist px py ux uy)).mpr ⟨px, py, ux, uy, rfl, rfl, rfl, hn, hs⟩
    obtain ⟨h1, h2⟩ := hmin k (Vec2.fin ux uy) (sqDist px py ux uy) hk hc.1 hc.2
    exact ⟨not_lt.mpr h1, h2⟩

/-- C2, at a concrete input: of two waypoints ahead at the same distance the first is
returned, and the second is not strictly nearer. -/
theorem pickWaypoint_nearest_first_witness :
    pickWaypoint [Vec2.fin 0 (-3), Vec2.fin 3 4, Vec2.fin (-3) 4] (Vec2.fin (0 : ℚ) 0) true
      = some 1 ∧
    ∃ px py wx wy, Vec2.fin (0 : ℚ) 0 = Vec2.fin px py ∧
      [Vec2.fin 0 (-3), Vec2.fin 3 4, Vec2.fin (-3 : ℚ) 4][1]? = some (Vec2.fin wx wy) ∧
      ∀ j ux uy, [Vec2.fin 0 (-3), Vec2.fin 3 4, Vec2.fin (-3 : ℚ) 4][j]?
          = some (Vec2.fin ux uy) → Ahead (Vec2.fin (0 : ℚ) 0) true (Vec2.fin ux uy) →
        ¬ (sqDist px py ux uy < sqDist px py wx wy) ∧
        (j < 1 → sqDist px py wx wy < sqDist px py ux uy) :=
  ⟨by norm_num [pickWaypoint, pickWaypointLoop, isBehind, Vec2.distSqr, Flt.gt, FLT_MAX],
    pickWaypoint_nearest_first _ _ _ _
      (by norm_num [pickWaypoint, pickWaypointLoop, isBehind, Vec2.distSqr, Flt.gt, FLT_MAX])⟩

/-- C3, as stated, fails: a single waypoint ahead of a north mob at `(0, 0)`, at lane
coordinate `2 * 10 ^ 19`, has squared distance `4 * 10 ^ 38`, above `FLT_MAX`; it is never
below the initial `smallestDistSq` and `pickWaypoint` returns none. -/
theorem pickWaypoint_none_counterexample :
    ¬ (pickWaypoint [Vec2.fin 0 20000000000000000000] (Vec2.fin (0 : ℚ) 0) true = none ↔
        ∀ w ∈ [Vec2.fin (0 : ℚ) 20000000000000000000], ¬ Ahead (Vec2.fin (0 : ℚ) 0) true w) := by
  intro h
  have hnone : pickWaypoint [Vec2.fin 0 20000000000000000000] (Vec2.fin (0 : ℚ) 0) true
      = none := by
    norm_num [pickWaypoint, pickWaypointLoop, isBehind, Vec2.distSqr, Flt.gt, FLT_MAX]
  refine h.mp hnone (Vec2.fin 0 20000000000000000000) (by simp) ?_
  exact ⟨0, 20000000000000000000, rfl, rfl, fun _ => by norm_num, fun h => by cases h⟩

/-- C3, amended: `pickWaypoint` returns none exactly when every waypoint of the list that
is ahead of the mob has a squared distance of at least `FLT_MAX`; and for a list of one
point behind a north mob followed by one point 10 units ahead, whose squared distance is
below `FLT_MAX`, it returns the point ahead. -/
theorem pickWaypoint_none_iff :
    (∀ (waypoints : List (Vec2 K)) (pos : Vec2 K) (north : Bool),
      pickWaypoint waypoints pos north = none ↔
        ∀ px py wx wy, pos = Vec2.fin px py → Vec2.fin wx wy ∈ waypoints →
          Ahead pos north (Vec2.fin wx wy) → FLT_MAX ≤ sqDist px py wx wy) ∧
    (∀ px py bx bY ax : K, bY - py < 1 → sqDist px py ax (py + 10) < FLT_MAX →
      pickWaypoint [Vec2.fin bx bY, Vec2.fin ax (py + 10)] (Vec2.fin px py) true = some 1) := by
  constructor
  · intro waypoints pos north
    unfold pickWaypoint
    rcases pickWaypointLoop_spec pos north waypoints 0 FLT_MAX none with
      ⟨hr, hall⟩ | ⟨j, pt, d, hj, hr, hb, hd, hlt, _⟩
    · rw [hr]
      refine Iff.intro (fun _ => ?_) (fun _ => rfl)
      rintro px py wx wy rfl hmem ⟨qy, vy, hqy, hvy, hn, hs⟩
      simp only [Vec2.fin_y, Flt.fin.injEq] at hqy hvy
      subst hqy hvy
      have hc := (isBehind_false_iff (Vec2.fin px py) (Vec2.fin wx wy) north
        (sqDist px py wx wy)).mpr ⟨px, py, wx, wy, rfl, rfl, rfl, hn, hs⟩
      exact hall _ hmem _ hc.1 hc.2
    · rw [hr]
      refine Iff.intro (fun h => by cases h) (fun h => ?_)
      exfalso
      obtain ⟨px, py, wx, wy, rfl, rfl, rfl, hn, hs⟩ :=
        (isBehind_false_iff pos pt north d).mp ⟨hb, hd⟩
      have := h px py wx wy rfl (List.mem_iff_getElem?.mpr ⟨j, hj⟩) ⟨py, wy, rfl, rfl, hn, hs⟩
      exact absurd hlt (not_lt.mpr this)
  · intro px py bx bY ax hbehind hnear
    have h1 : isBehind (Vec2.fin px py) true (Vec2.fin bx bY) = true := by
      simp [isBehind, hbehind]
    have h2 : isBehind (Vec2.fin px py) true (Vec2.fin ax (py + 10)) = false := by
      simp [isBehind]
    have h3 : (Vec2.fin px py).distSqr (Vec2.fin ax (py + 10))
        = Flt.fin (sqDist px py ax (py + 10)) := by
      simp [Vec2.distSqr, sqDist]
    simp [pickWaypoint, pickWaypointLoop, h1, h2, h3, hnear]

/-- C3 amended, at concrete inputs: with only a waypoint behind the mob the result is
none, and with a waypoint behind and one 10 units ahead the one ahead is returned. -/
theorem pickWaypoint_none_iff_witness :
    pickWaypoint [Vec2.fin 0 (-3)] (Vec2.fin (0 : ℚ) 0) true = none ∧
    pickWaypoint [Vec2.fin 0 (-3), Vec2.fin 0 (0 + 10)] (Vec2.fin (0 : ℚ) 0) true = some 1 :=
  ⟨(pickWaypoint_none_iff.1 [Vec2.fin 0 (-3)] (Vec2.fin (0 : ℚ) 0) true).mpr (by
      rintro px py wx wy hpos hmem ⟨qy, vy, hqy, hvy, hn, _⟩
      simp only [List.mem_singleton, Vec2.fin, Vec2.mk.injEq, Flt.fin.injEq] at hmem
      simp only [Vec2.fin_y, Flt.fin.injEq] at hqy hvy
      have := hn rfl
      rw [← hqy, ← hvy, hmem.2] at this
      norm_num at this),
    pickWaypoint_none_iff.2 0 0 0 (-3) 0 (by norm_num) (by norm_num [sqDist, FLT_MAX])⟩

end PickWaypointClaims

end BB

namespace BB

section Destination

variable {K : Type} [LinearOrderedField K]

/-- An index returned by `pickWaypoint` points into the waypoint array. -/
theorem pickWaypoint_lt_length (waypoints : List (Vec2 K)) (pos : Vec2 K) (north : Bool)
    (i : Nat) (h : pickWaypoint waypoints pos north = some i) :
    ∃ w, waypoints[i]? = some w ∧ derefWaypoint waypoints i = w := by
  unfold pickWaypoint at h
  rcases pickWaypointLoop_spec pos north waypoints 0 FLT_MAX none with
    ⟨hr, _⟩ | ⟨j, pt, d, hj, hr, _, _, _, _⟩
  · rw [hr] at h; cases h
  · rw [hr] at h
    have hij : j = i := by simpa using h
    subst hij
    refine ⟨pt, hj, ?_⟩
    simp [derefWaypoint, List.getD, hj]

/-- The value of `bMoveToTarget` in terms of the target and the two sides of the river. -/
theorem chaseTarget_eq_some_iff (H : K) (m : Mob K) (t : Entity K) :
    chaseTarget H m = some t ↔
      m.m_pTarget = some t ∧
        m.m_Pos.y.lt (Flt.fin (H / 2)) = t.m_Pos.y.lt (Flt.fin (H / 2)) := by
  unfold chaseTarget
  cases hT : m.m_pTarget with
  | none => simp
  | some u =>
    by_cases hside : m.m_Pos.y.lt (Flt.fin (H / 2)) = u.m_Pos.y.lt (Flt.fin (H / 2))
    · simp only [hside, if_true, Option.some.injEq]
      constructor
      · rintro rfl; exact ⟨rfl, rfl⟩
      · rintro ⟨h, _⟩; exact h
    · simp only [hside, if_false]
      constructor
      · intro h; cases h
      · rintro ⟨h, h2⟩
        cases h
        exact absurd h2 hside

/-- No target is chased exactly when there is no target or it is across the river. -/
theorem chaseTarget_eq_none_iff (H : K) (m : Mob K) :
    chaseTarget H m = none ↔
      ∀ t, m.m_pTarget = some t →
        m.m_Pos.y.lt (Flt.fin (H / 2)) ≠ t.m_Pos.y.lt (Flt.fin (H / 2)) := by
  constructor
  · intro h t ht hside
    have := (chaseTarget_eq_some_iff H m t).mpr ⟨ht, hside⟩
    rw [h] at this
    cases this
  · intro h
    cases hc : chaseTarget H m with
    | none => rfl
    | some t =>
      obtain ⟨h1, h2⟩ := (chaseTarget_eq_some_iff H m t).mp hc
      exact absurd h2 (h t h1)

/-- C4 (destination policy of `move`): with a target on the same side of the midline
(`pos.y < H / 2` has the same truth value for the mob and the target) the destination is
the target's position and the waypoint reference becomes none; otherwise the destination
is the stored waypoint when one is set, else the waypoint `pickWaypoint` returns, which is
stored, and when that is none the destination is the mob's own position. -/
theorem chooseDest_policy (H : K) (waypoints : List (Vec2 K)) (m : Mob K) :
    (∀ t, m.m_pTarget = some t →
        m.m_Pos.y.lt (Flt.fin (H / 2)) = t.m_Pos.y.lt (Flt.fin (H / 2)) →
        (chooseDest H waypoints m).2 = t.m_Pos ∧
        (chooseDest H waypoints m).1 = { m with m_pWaypoint := none }) ∧
    ((∀ t, m.m_pTarget = some t →
        m.m_Pos.y.lt (Flt.fin (H / 2)) ≠ t.m_Pos.y.lt (Flt.fin (H / 2))) →
      (∀ i w, m.m_pWaypoint = some i → waypoints[i]? = some w →
        (chooseDest H waypoints m).2 = w ∧ (chooseDest H waypoints m).1 = m) ∧
      (∀ i, m.m_pWaypoint = none → pickWaypoint waypoints m.m_Pos m.m_bNorth = some i →
        ∃ w, waypoints[i]? = some w ∧ (chooseDest H waypoints m).2 = w ∧
          (chooseDest H waypoints m).1 = { m with m_pWaypoint := some i }) ∧
      (m.m_pWaypoint = none → pickWaypoint waypoints m.m_Pos m.m_bNorth = none →
        (chooseDest H waypoints m).2 = m.m_Pos ∧ (chooseDest H waypoints m).1 = m)) := by
  refine ⟨?_, ?_⟩
  · intro t ht hside
    have hc := (chaseTarget_eq_some_iff H m t).mpr ⟨ht, hside⟩
    simp [chooseDest, hc]
  · intro hno
    have hc := (chaseTarget_eq_none_iff H m).mpr hno
    refine ⟨?_, ?_, ?_⟩
    · intro i w hi hw
      simp [chooseDest, hc, hi, waypointOrPos, derefWaypoint, List.getD, hw]
    · intro i hi hp
      obtain ⟨w, hw, hd⟩ := pickWaypoint_lt_length waypoints m.m_Pos m.m_bNorth i hp
      refine ⟨w, hw, ?_, ?_⟩
      · simp [chooseDest, hc, hi, hp, waypointOrPos, hd]
      · simp [chooseDest, hc, hi, hp]
    · intro hi hp
      constructor
      · simp [chooseDest, hc, hi, hp, waypointOrPos]
      · simp only [chooseDest, hc, hi, hp]
        cases m
        simp_all

/-- C4, at concrete inputs: a north mob at `(0, 0)` with a target at `(0, 5)` on its side
of a river at `y = 50` heads for the target and drops its waypoint; with the target across
the river at `(0, 60)` it keeps heading for its stored waypoint. -/
theorem chooseDest_policy_witness :
    ((chooseDest (100 : ℚ) [Vec2.fin 0 20]
        ⟨0, ⟨1, 1, 1⟩, Vec2.fin 0 0, true, some ⟨1, Vec2.fin 0 5, ⟨1, 1, 1⟩⟩, some 0,
          Vec2.fin 0 0⟩).2 = Vec2.fin 0 5 ∧
      (chooseDest (100 : ℚ) [Vec2.fin 0 20]
        ⟨0, ⟨1, 1, 1⟩, Vec2.fin 0 0, true, some ⟨1, Vec2.fin 0 5, ⟨1, 1, 1⟩⟩, some 0,
          Vec2.fin 0 0⟩).1 =
        ⟨0, ⟨1, 1, 1⟩, Vec2.fin 0 0, true, some ⟨1, Vec2.fin 0 5, ⟨1, 1, 1⟩⟩, none,
          Vec2.fin 0 0⟩) ∧
    ((chooseDest (100 : ℚ) [Vec2.fin 0 20]
        ⟨0, ⟨1, 1, 1⟩, Vec2.fin 0 0, true, some ⟨1, Vec2.fin 0 60, ⟨1, 1, 1⟩⟩, some 0,
          Vec2.fin 0 0⟩).2 = Vec2.fin 0 20 ∧
      (chooseDest (100 : ℚ) [Vec2.fin 0 20]
        ⟨0, ⟨1, 1, 1⟩, Vec2.fin 0 0, true, some ⟨1, Vec2.fin 0 60, ⟨1, 1, 1⟩⟩, some 0,
          Vec2.fin 0 0⟩).1 =
        ⟨0, ⟨1, 1, 1⟩, Vec2.fin 0 0, true, some ⟨1, Vec2.fin 0 60, ⟨1, 1, 1⟩⟩, some 0,
          Vec2.fin 0 0⟩) :=
  ⟨(chooseDest_policy (100 : ℚ) [Vec2.fin 0 20]
      ⟨0, ⟨1, 1, 1⟩, Vec2.fin 0 0, true, some ⟨1, Vec2.fin 0 5, ⟨1, 1, 1⟩⟩, some 0,
        Vec2.fin 0 0⟩).1 ⟨1, Vec2.fin 0 5, ⟨1, 1, 1⟩⟩ rfl (by norm_num [Vec2.fin]),
   ((chooseDest_policy (100 : ℚ) [Vec2.fin 0 20]
      ⟨0, ⟨1, 1, 1⟩, Vec2.fin 0 0, true, some ⟨1, Vec2.fin 0 60, ⟨1, 1, 1⟩⟩, some 0,
        Vec2.fin 0 0⟩).2 (by
          intro t ht
          simp only [Option.some.injEq] at ht
          subst ht
          norm_num [Vec2.fin])).1 0 (Vec2.fin 0 20) rfl rfl⟩

end Destination

end BB

namespace BB

section Lengths

variable {K : Type} [LinearOrderedField K]

/-- The real square root satisfies the laws `IsSqrt`. -/
theorem isSqrt_real : IsSqrt Real.sqrt :=
  ⟨fun a _ => Real.sqrt_nonneg a, fun _ h => Real.mul_self_sqrt h⟩

theorem IsSqrt.eq_of_mul_self {sqrt : K → K} (hs : IsSqrt sqrt) {a b : K} (hb : 0 ≤ b)
    (h : b * b = a) : sqrt a = b := by
  have ha : 0 ≤ a := by rw [← h]; exact mul_self_nonneg b
  have h1 := hs.nonneg a ha
  have h2 := hs.mul_self a ha
  nlinarith [sq_nonneg (sqrt a - b), sq_nonneg (sqrt a + b)]

theorem IsSqrt.sqrt_zero {sqrt : K → K} (hs : IsSqrt sqrt) : sqrt 0 = 0 :=
  hs.eq_of_mul_self (le_refl 0) (by ring)

theorem sq_add_sq_nonneg (x y : K) : 0 ≤ x * x + y * y :=
  add_nonneg (mul_self_nonneg x) (mul_self_nonneg y)

theorem len_nonneg {sqrt : K → K} (hs : IsSqrt sqrt) (x y : K) : 0 ≤ len sqrt x y :=
  hs.nonneg _ (sq_add_sq_nonneg x y)

theorem len_mul_self {sqrt : K → K} (hs : IsSqrt sqrt) (x y : K) :
    len sqrt x y * len sqrt x y = x * x + y * y :=
  hs.mul_self _ (sq_add_sq_nonneg x y)

theorem len_eq_zero_iff {sqrt : K → K} (hs : IsSqrt sqrt) (x y : K) :
    len sqrt x y = 0 ↔ x = 0 ∧ y = 0 := by
  constructor
  · intro h
    have h2 := len_mul_self hs x y
    rw [h] at h2
    have hx := mul_self_nonneg x
    have hy := mul_self_nonneg y
    constructor
    · exact mul_self_eq_zero.mp (by linarith)
    · exact mul_self_eq_zero.mp (by linarith)
  · rintro ⟨rfl, rfl⟩
    unfold len
    simpa using hs.sqrt_zero

/-- The triangle inequality for `len`. -/
theorem len_add_le {sqrt : K → K} (hs : IsSqrt sqrt) (x1 y1 x2 y2 : K) :
    len sqrt (x1 + x2) (y1 + y2) ≤ len sqrt x1 y1 + len sqrt x2 y2 := by
  have h0 := len_nonneg hs (x1 + x2) (y1 + y2)
  have h1 := len_nonneg hs x1 y1
  have h2 := len_nonneg hs x2 y2
  have e0 := len_mul_self hs (x1 + x2) (y1 + y2)
  have e1 := len_mul_self hs x1 y1
  have e2 := len_mul_self hs x2 y2
  have hcs : x1 * x2 + y1 * y2 ≤ len sqrt x1 y1 * len sqrt x2 y2 := by
    by_contra hlt
    push_neg at hlt
    have hpos : 0 ≤ len sqrt x1 y1 * len sqrt x2 y2 := mul_nonneg h1 h2
    have hsq : (len sqrt x1 y1 * len sqrt x2 y2) * (len sqrt x1 y1 * len sqrt x2 y2)
        < (x1 * x2 + y1 * y2) * (x1 * x2 + y1 * y2) :=
      mul_self_lt_mul_self hpos hlt
    have hprod : (len sqrt x1 y1 * len sqrt x2 y2) * (len sqrt x1 y1 * len sqrt x2 y2)
        = (x1 * x1 + y1 * y1) * (x2 * x2 + y2 * y2) := by
      rw [← e1, ← e2]; ring
    nlinarith [sq_nonneg (x1 * y2 - x2 * y1)]
  by_contra hlt
  push_neg at hlt
  have hsq := mul_self_lt_mul_self (add_nonneg h1 h2) hlt
  nlinarith

/-- Moving by a vector of length at most `L` brings a point no closer to a target than
its former distance minus `L`. -/
theorem len_sub_step {sqrt : K → K} (hs : IsSqrt sqrt) (tx ty px py ux uy : K) :
    len sqrt (tx - px) (ty - py) - len sqrt ux uy ≤
      len sqrt (tx - (px + ux)) (ty - (py + uy)) := by
  have h := len_add_le hs (tx - (px + ux)) (ty - (py + uy)) ux uy
  have e1 : tx - (px + ux) + ux = tx - px := by ring
  have e2 : ty - (py + uy) + uy = ty - py := by ring
  rw [e1, e2] at h
  linarith

/-- A vector over its length, times `r ≥ 0`, has length `r`. -/
theorem len_unit_scale {sqrt : K → K} (hs : IsSqrt sqrt) (x y r : K) (hr : 0 ≤ r)
    (hne : len sqrt x y ≠ 0) :
    len sqrt (x / len sqrt x y * r) (y / len sqrt x y * r) = r := by
  unfold len
  apply hs.eq_of_mul_self hr
  have e := len_mul_self hs x y
  unfold len at e hne
  generalize sqrt (x * x + y * y) = L at e hne
  field_simp
  linear_combination (r * r) * e

@[simp] theorem Vec2.length_fin (sqrt : K → K) (x y : K) :
    (Vec2.fin x y).length sqrt = Flt.fin (len sqrt x y) := by
  simp [Vec2.length, Vec2.fin, Flt.sqrt, len, not_lt.mpr (sq_add_sq_nonneg x y)]

theorem Flt.sqrt_eq_fin {sqrt : K → K} {a : Flt K} {c : K} (h : Flt.sqrt sqrt a = Flt.fin c) :
    ∃ x, a = Flt.fin x ∧ c = sqrt x := by
  cases a with
  | nan => simp [Flt.sqrt] at h
  | fin x =>
    by_cases hx : x < 0
    · simp [Flt.sqrt, hx] at h
    · simp [Flt.sqrt, hx] at h
      exact ⟨x, rfl, h.symm⟩

/-- A vector of finite length has finite coordinates. -/
theorem Vec2.length_eq_fin {sqrt : K → K} {v : Vec2 K} {c : K}
    (h : v.length sqrt = Flt.fin c) : ∃ x y, v = Vec2.fin x y ∧ c = len sqrt x y := by
  obtain ⟨a, ha, rfl⟩ := Flt.sqrt_eq_fin h
  obtain ⟨a1, a2, h1, h2, rfl⟩ := Flt.add_eq_fin ha
  obtain ⟨x, x2, hx, hx2, rfl⟩ := Flt.mul_eq_fin h1
  obtain ⟨y, y2, hy, hy2, rfl⟩ := Flt.mul_eq_fin h2
  rw [hx] at hx2
  rw [hy] at hy2
  cases hx2
  cases hy2
  exact ⟨x, y, Vec2.eq_fin hx hy, rfl⟩

end Lengths

end BB

namespace BB

section Evaluation

variable {K : Type} [LinearOrderedField K]

@[simp] theorem Vec2.vfin_add_vfin (a b c d : K) :
    Vec2.fin a b + Vec2.fin c d = Vec2.fin (a + c) (b + d) := rfl

@[simp] theorem Vec2.vfin_sub_vfin (a b c d : K) :
    Vec2.fin a b - Vec2.fin c d = Vec2.fin (a - c) (b - d) := rfl

@[simp] theorem Vec2.fin_scale_fin (a b c : K) :
    (Vec2.fin a b).scale (Flt.fin c) = Vec2.fin (a * c) (b * c) := rfl

theorem Vec2.fin_sdiv_fin (a b : K) {c : K} (hc : c ≠ 0) :
    (Vec2.fin a b).sdiv (Flt.fin c) = Vec2.fin (a / c) (b / c) := by
  simp [Vec2.sdiv, Vec2.fin, Flt.fin_div_fin, hc]

@[simp] theorem Vec2.sdiv_zero (v : Vec2 K) : v.sdiv (Flt.fin 0) = ⟨Flt.nan, Flt.nan⟩ := by
  cases v with
  | mk x y => cases x <;> cases y <;> simp [Vec2.sdiv, Flt.fin_div_fin]

@[simp] theorem Vec2.nan_scale (f : Flt K) :
    (⟨Flt.nan, Flt.nan⟩ : Vec2 K).scale f = ⟨Flt.nan, Flt.nan⟩ := rfl

@[simp] theorem Vec2.add_nanVec (v : Vec2 K) : v + ⟨Flt.nan, Flt.nan⟩ = ⟨Flt.nan, Flt.nan⟩ := by
  cases v with
  | mk x y => cases x <;> cases y <;> rfl

@[simp] theorem Vec2.length_nan (sqrt : K → K) :
    (⟨Flt.nan, Flt.nan⟩ : Vec2 K).length sqrt = Flt.nan := rfl

@[simp] theorem Vec2.fin_distSqr_fin (a b c d : K) :
    (Vec2.fin a b).distSqr (Vec2.fin c d) = Flt.fin (sqDist a b c d) := rfl

/-- With both rosters empty the steering loop does nothing. -/
theorem steer_nil (sqrt : K → K) (deltaTSec : K) (m : Mob K) :
    steer sqrt [] [] deltaTSec m = m := by
  simp [steer, checkCollision, scanRoster]

/-- The tick of `exMob` with waypoints at `(0, 9)` and `(0, 100)`: the waypoint 9 units
ahead is reached and a second step of 9 units follows. -/
theorem move_two_legs_eval {sqrt : K → K} (hs : IsSqrt sqrt) :
    move sqrt 100 [Vec2.fin 0 9, Vec2.fin 0 100] [] [] 1 exMob
      = { (exMob : Mob K) with
          m_Pos := Vec2.fin 0 18, m_pWaypoint := some 1, m_velocity := Vec2.fin 0 10 } := by
  have h9 : len sqrt 0 9 = 9 := hs.eq_of_mul_self (by norm_num) (by norm_num)
  have h10 : len sqrt 0 10 = 10 := hs.eq_of_mul_self (by norm_num) (by norm_num)
  have h91 : len sqrt 0 91 = 91 := hs.eq_of_mul_self (by norm_num) (by norm_num)
  have hp0 : pickWaypoint [Vec2.fin 0 9, Vec2.fin 0 100] (Vec2.fin (0 : K) 0) true = some 0 := by
    norm_num [pickWaypoint, pickWaypointLoop, isBehind, sqDist, Flt.gt, FLT_MAX]
  have hp1 : pickWaypoint [Vec2.fin 0 9, Vec2.fin 0 100] (Vec2.fin (0 : K) 9) true = some 1 := by
    norm_num [pickWaypoint, pickWaypointLoop, isBehind, sqDist, Flt.gt, FLT_MAX]
  have hcd : chooseDest (100 : K) [Vec2.fin 0 9, Vec2.fin 0 100] exMob
      = ({ (exMob : Mob K) with m_pWaypoint := some 0 }, Vec2.fin 0 9) := by
    simp [chooseDest, chaseTarget, exMob, hp0, waypointOrPos, derefWaypoint]
  have hst : moveSteered sqrt 100 [Vec2.fin 0 9, Vec2.fin 0 100] [] [] 1 exMob
      = { (exMob : Mob K) with m_pWaypoint := some 0, m_velocity := Vec2.fin 0 10 } := by
    simp only [moveSteered, hcd, steer_nil]
    simp [headFor, exMob, h9, Vec2.fin_sdiv_fin]
  have hrem : moveRemaining sqrt 100 [Vec2.fin 0 9, Vec2.fin 0 100] (exMob : Mob K)
      = Flt.fin 9 := by
    simp only [moveRemaining, hcd]
    simp [chaseTarget, exMob, h9]
  simp only [move, hst, hrem]
  norm_num [exMob, h10, secondLeg, hp1, waypointOrPos, derefWaypoint, headFor,
    h91, Vec2.fin_sdiv_fin]

end Evaluation

end BB

namespace BB

section Frame

variable {K : Type} [LinearOrderedField K]

/-- The method `processCollision` changes no field of the mob but its velocity. -/
theorem processCollision_fields (sqrt : K → K) (e : Entity K) (deltaTSec : K) (m : Mob K) :
    processCollision sqrt e deltaTSec m =
      { m with m_velocity := (processCollision sqrt e deltaTSec m).m_velocity } := by
  unfold processCollision
  by_cases hm : m.m_Stats.mass < e.m_Stats.mass
  · simp only [hm, if_true]
    split_ifs <;> rfl
  · simp only [hm, if_false]

/-- The steering loop changes no field of the mob but its velocity. -/
theorem foldl_processCollision_fields (sqrt : K → K) (deltaTSec : K) (l : List (Entity K)) :
    ∀ m : Mob K, l.foldl (fun acc e => processCollision sqrt e deltaTSec acc) m =
      { m with m_velocity :=
        (l.foldl (fun acc e => processCollision sqrt e deltaTSec acc) m).m_velocity } := by
  induction l with
  | nil => intro m; rfl
  | cons e rest ih =>
    intro m
    simp only [List.foldl_cons]
    have h1 := ih (processCollision sqrt e deltaTSec m)
    have h2 := processCollision_fields sqrt e deltaTSec m
    rw [h2] at h1
    rw [h2]
    exact h1

/-- The mob after the steering loop of `move`, when a target is chased: only the velocity
differs from the mob with its waypoint reference cleared. -/
theorem moveSteered_chase (sqrt : K → K) (H : K) (waypoints : List (Vec2 K))
    (northMobs southMobs : List (Entity K)) (deltaTSec : K) (m : Mob K) (t : Entity K)
    (hc : chaseTarget H m = some t) :
    moveSteered sqrt H waypoints northMobs southMobs deltaTSec m =
      { m with m_pWaypoint := none, m_velocity :=
        (moveSteered sqrt H waypoints northMobs southMobs deltaTSec m).m_velocity } := by
  have hcd : chooseDest H waypoints m = ({ m with m_pWaypoint := none }, t.m_Pos) := by
    simp [chooseDest, hc]
  unfold moveSteered steer
  simp only [hcd]
  exact foldl_processCollision_fields sqrt deltaTSec _ _

end Frame

end BB

namespace BB

section Evaluation2

variable {K : Type} [LinearOrderedField K]

/-- The first step of the tick of `exMob` with waypoints at `(0, 9)` and `(0, 10)` ends on
the waypoint `(0, 9)`, and the tick continues from there with `distanceRemaining = 9`. -/
theorem move_past_next_first {sqrt : K → K} (hs : IsSqrt sqrt) :
    move sqrt 100 [Vec2.fin 0 9, Vec2.fin 0 10] [] [] 1 exMob
      = secondLeg sqrt [Vec2.fin 0 9, Vec2.fin 0 10] 1 (Flt.fin 9)
          { (exMob : Mob K) with
            m_Pos := Vec2.fin 0 9, m_pWaypoint := some 0, m_velocity := Vec2.fin 0 10 } := by
  have h9 : len sqrt 0 9 = 9 := hs.eq_of_mul_self (by norm_num) (by norm_num)
  have h10 : len sqrt 0 10 = 10 := hs.eq_of_mul_self (by norm_num) (by norm_num)
  have hp0 : pickWaypoint [Vec2.fin 0 9, Vec2.fin 0 10] (Vec2.fin (0 : K) 0) true = some 0 := by
    norm_num [pickWaypoint, pickWaypointLoop, isBehind, sqDist, Flt.gt, FLT_MAX]
  have hcd : chooseDest (100 : K) [Vec2.fin 0 9, Vec2.fin 0 10] exMob
      = ({ (exMob : Mob K) with m_pWaypoint := some 0 }, Vec2.fin 0 9) := by
    simp [chooseDest, chaseTarget, exMob, hp0, waypointOrPos, derefWaypoint]
  have hst : moveSteered sqrt 100 [Vec2.fin 0 9, Vec2.fin 0 10] [] [] 1 exMob
      = { (exMob : Mob K) with m_pWaypoint := some 0, m_velocity := Vec2.fin 0 10 } := by
    simp only [moveSteered, hcd, steer_nil]
    simp [headFor, exMob, h9, Vec2.fin_sdiv_fin]
  have hrem : moveRemaining sqrt 100 [Vec2.fin 0 9, Vec2.fin 0 10] (exMob : Mob K)
      = Flt.fin 9 := by
    simp only [moveRemaining, hcd]
    simp [chaseTarget, exMob, h9]
  simp only [move, hst, hrem]
  norm_num [exMob, h10, Vec2.fin_sdiv_fin]

/-- The tick of `exMob` with waypoints at `(0, 9)` and `(0, 10)`: after the first
waypoint is reached the second step of 9 units passes the waypoint one unit further. -/
theorem move_past_next_eval {sqrt : K → K} (hs : IsSqrt sqrt) :
    move sqrt 100 [Vec2.fin 0 9, Vec2.fin 0 10] [] [] 1 exMob
      = { (exMob : Mob K) with
          m_Pos := Vec2.fin 0 18, m_pWaypoint := some 1, m_velocity := Vec2.fin 0 10 } := by
  have h9 : len sqrt 0 9 = 9 := hs.eq_of_mul_self (by norm_num) (by norm_num)
  have h10 : len sqrt 0 10 = 10 := hs.eq_of_mul_self (by norm_num) (by norm_num)
  have h1 : len sqrt 0 1 = 1 := hs.eq_of_mul_self (by norm_num) (by norm_num)
  have hp0 : pickWaypoint [Vec2.fin 0 9, Vec2.fin 0 10] (Vec2.fin (0 : K) 0) true = some 0 := by
    norm_num [pickWaypoint, pickWaypointLoop, isBehind, sqDist, Flt.gt, FLT_MAX]
  have hp1 : pickWaypoint [Vec2.fin 0 9, Vec2.fin 0 10] (Vec2.fin (0 : K) 9) true = some 1 := by
    norm_num [pickWaypoint, pickWaypointLoop, isBehind, sqDist, Flt.gt, FLT_MAX]
  have hcd : chooseDest (100 : K) [Vec2.fin 0 9, Vec2.fin 0 10] exMob
      = ({ (exMob : Mob K) with m_pWaypoint := some 0 }, Vec2.fin 0 9) := by
    simp [chooseDest, chaseTarget, exMob, hp0, waypointOrPos, derefWaypoint]
  have hst : moveSteered sqrt 100 [Vec2.fin 0 9, Vec2.fin 0 10] [] [] 1 exMob
      = { (exMob : Mob K) with m_pWaypoint := some 0, m_velocity := Vec2.fin 0 10 } := by
    simp only [moveSteered, hcd, steer_nil]
    simp [headFor, exMob, h9, Vec2.fin_sdiv_fin]
  have hrem : moveRemaining sqrt 100 [Vec2.fin 0 9, Vec2.fin 0 10] (exMob : Mob K)
      = Flt.fin 9 := by
    simp only [moveRemaining, hcd]
    simp [chaseTarget, exMob, h9]
  simp only [move, hst, hrem]
  norm_num [exMob, h10, secondLeg, hp1, waypointOrPos, derefWaypoint, headFor,
    h1, Vec2.fin_sdiv_fin]

/-- The velocity of `exMob` after the steering loop when there is no waypoint: the
direction is `0 / 0`. -/
theorem moveSteered_nowhere_eval {sqrt : K → K} (hs : IsSqrt sqrt) :
    (moveSteered sqrt 100 [] [] [] 1 (exMob : Mob K)).m_velocity = ⟨Flt.nan, Flt.nan⟩ := by
  have h0 : len sqrt 0 0 = 0 := hs.eq_of_mul_self (le_refl 0) (by norm_num)
  have hcd : chooseDest (100 : K) [] exMob = ((exMob : Mob K), Vec2.fin 0 0) := by
    simp [chooseDest, chaseTarget, exMob, pickWaypoint, pickWaypointLoop, waypointOrPos]
  simp only [moveSteered, hcd, steer_nil]
  simp [headFor, exMob, h0]

/-- The velocity of `exMob`, at rest, after `processCollision` with the heavier
`exHeavy`: the projected point is `0 / 0`. -/
theorem processCollision_rest_eval {sqrt : K → K} (hs : IsSqrt sqrt) :
    (processCollision sqrt exHeavy 1 (exMob : Mob K)).m_velocity = ⟨Flt.nan, Flt.nan⟩ := by
  have h0 : len sqrt 0 0 = 0 := hs.eq_of_mul_self (le_refl 0) (by norm_num)
  have ha : aheadPoint sqrt 1 (exMob : Mob K) = ⟨Flt.nan, Flt.nan⟩ := by
    simp [aheadPoint, exMob, h0]
  have hn : ((⟨Flt.nan, Flt.nan⟩ : Vec2 K) - (exHeavy : Entity K).m_Pos).normalize sqrt
      = ⟨Flt.nan, Flt.nan⟩ := by
    simp [Vec2.normalize, Vec2.sdiv, Vec2.sub, exHeavy, Vec2.length, Flt.sqrt, HSub.hSub, Sub.sub,
      Flt.sub, HDiv.hDiv, Div.div, Flt.div]
  have hm : (exMob : Mob K).m_Stats.mass < (exHeavy : Entity K).m_Stats.mass := by
    norm_num [exMob, exHeavy]
  simp only [processCollision, hm, if_true, ha, hn]
  simp [Flt.gt]

/-- The tick of `exChaser`, which starts inside the melee allowance of its target: the
remaining distance is clamped to 0 and the mob stays where it is. -/
theorem move_inside_eval {sqrt : K → K} (hs : IsSqrt sqrt) :
    (move sqrt 100 [] [] [] 1 (exChaser : Mob K)).m_Pos = Vec2.fin 0 0 := by
  have h1 : len sqrt 0 1 = 1 := hs.eq_of_mul_self (by norm_num) (by norm_num)
  have hc : chaseTarget (100 : K) exChaser = some ⟨1, Vec2.fin 0 1, ⟨1, 2, 1⟩⟩ := by
    norm_num [chaseTarget, exChaser]
  have hcd : chooseDest (100 : K) [] exChaser
      = ({ (exChaser : Mob K) with m_pWaypoint := none }, Vec2.fin 0 1) := by
    simp [chooseDest, hc]
  have hst : moveSteered sqrt 100 [] [] [] 1 exChaser
      = { (exChaser : Mob K) with m_velocity := Vec2.fin 0 1 } := by
    simp only [moveSteered, hcd, steer_nil]
    simp [headFor, exChaser, h1, Vec2.fin_sdiv_fin]
  have hrem : moveRemaining sqrt 100 [] (exChaser : Mob K) = Flt.fin 0 := by
    simp only [moveRemaining, hcd, hc]
    norm_num [exChaser, h1, Flt.max]
  simp only [move, hst, hrem]
  norm_num [exChaser, h1, Vec2.fin_sdiv_fin]

/-- The tick of `exScenario`: the target is 5 ahead, the remaining distance is 4 and the
mob advances by 2. -/
theorem move_scenario_eval {sqrt : K → K} (hs : IsSqrt sqrt) :
    (move sqrt 100 [] [] [] 1 (exScenario : Mob K)).m_Pos = Vec2.fin 0 2 := by
  have h5 : len sqrt 0 5 = 5 := hs.eq_of_mul_self (by norm_num) (by norm_num)
  have h2 : len sqrt 0 2 = 2 := hs.eq_of_mul_self (by norm_num) (by norm_num)
  have hc : chaseTarget (100 : K) exScenario = some ⟨1, Vec2.fin 0 5, ⟨2, 1, 1⟩⟩ := by
    norm_num [chaseTarget, exScenario]
  have hcd : chooseDest (100 : K) [] exScenario
      = ({ (exScenario : Mob K) with m_pWaypoint := none }, Vec2.fin 0 5) := by
    simp [chooseDest, hc]
  have hst : moveSteered sqrt 100 [] [] [] 1 exScenario
      = { (exScenario : Mob K) with m_velocity := Vec2.fin 0 2 } := by
    simp only [moveSteered, hcd, steer_nil]
    simp [headFor, exScenario, h5, Vec2.fin_sdiv_fin]
  have hrem : moveRemaining sqrt 100 [] (exScenario : Mob K) = Flt.fin 4 := by
    simp only [moveRemaining, hcd, hc]
    norm_num [exScenario, h5, Flt.max]
  simp only [move, hst, hrem]
  norm_num [exScenario, h2]

end Evaluation2

end BB

namespace BB

section Chase

variable {K : Type} [LinearOrderedField K]

/-- The remaining distance when chasing a target that is at least the melee allowance
away: the distance less the allowance. -/
theorem moveRemaining_chase {sqrt : K → K} (H : K) (waypoints : List (Vec2 K))
    (m : Mob K) (t : Entity K) (px py tx ty : K) (hc : chaseTarget H m = some t)
    (hpos : m.m_Pos = Vec2.fin px py) (htpos : t.m_Pos = Vec2.fin tx ty)
    (hfar : (m.m_Stats.size + t.m_Stats.size) / 2 ≤ len sqrt (tx - px) (ty - py)) :
    moveRemaining sqrt H waypoints m =
      Flt.fin (len sqrt (tx - px) (ty - py) - (m.m_Stats.size + t.m_Stats.size) / 2) := by
  have hcd : chooseDest H waypoints m = ({ m with m_pWaypoint := none }, t.m_Pos) := by
    simp [chooseDest, hc]
  simp only [moveRemaining, hcd, hc, hpos, htpos, Vec2.vfin_sub_vfin, Vec2.length_fin,
    Flt.fin_sub_fin, Flt.max, Flt.lt_fin_fin]
  by_cases h0 : 0 < len sqrt (tx - px) (ty - py) - (m.m_Stats.size + t.m_Stats.size) / 2
  · simp [h0]
  · simp only [h0, decide_False, Bool.false_eq_true, if_false, Flt.fin.injEq]
    linarith

/-- The position after `move` when a target is chased: one step, clamped to the
remaining distance. -/
theorem move_pos_chase (sqrt : K → K) (H : K) (waypoints : List (Vec2 K))
    (northMobs southMobs : List (Entity K)) (deltaTSec : K) (m : Mob K) (t : Entity K)
    (hc : chaseTarget H m = some t) :
    (move sqrt H waypoints northMobs southMobs deltaTSec m).m_Pos =
      if (((moveSteered sqrt H waypoints northMobs southMobs deltaTSec m).m_velocity.scale
          (Flt.fin deltaTSec)).length sqrt).le (moveRemaining sqrt H waypoints m) then
        m.m_Pos + (moveSteered sqrt H waypoints northMobs southMobs deltaTSec m).m_velocity.scale
          (Flt.fin deltaTSec)
      else
        m.m_Pos +
          (((moveSteered sqrt H waypoints northMobs southMobs deltaTSec m).m_velocity.scale
            (Flt.fin deltaTSec)).sdiv
            (((moveSteered sqrt H waypoints northMobs southMobs deltaTSec m).m_velocity.scale
              (Flt.fin deltaTSec)).length sqrt)).scale (moveRemaining sqrt H waypoints m) := by
  have hfr := moveSteered_chase sqrt H waypoints northMobs southMobs deltaTSec m t hc
  simp only [move]
  generalize moveSteered sqrt H waypoints northMobs southMobs deltaTSec m = m3 at hfr ⊢
  have hp : m3.m_Pos = m.m_Pos := by rw [hfr]
  have hw : m3.m_pWaypoint = none := by rw [hfr]
  split_ifs with hle
  · simp [hp]
  · simp [hp, hw]

/-- C6, amended (no overshoot when chasing): in a tick in which `move` chases a target
(target present and on the same side of the midline) that is at least
`(sizeA + sizeB) / 2` away before the tick, and that ends at a position with number
coordinates, the distance to the target after the tick is at least `(sizeA + sizeB) / 2`,
whatever velocity steering produced. -/
theorem move_chase_no_overshoot {sqrt : K → K} (hs : IsSqrt sqrt) (H : K)
    (waypoints : List (Vec2 K)) (northMobs southMobs : List (Entity K)) (deltaTSec : K)
    (m : Mob K) (t : Entity K) (px py tx ty qx qy : K)
    (ht : m.m_pTarget = some t)
    (hside : m.m_Pos.y.lt (Flt.fin (H / 2)) = t.m_Pos.y.lt (Flt.fin (H / 2)))
    (hpos : m.m_Pos = Vec2.fin px py) (htpos : t.m_Pos = Vec2.fin tx ty)
    (hfar : (m.m_Stats.size + t.m_Stats.size) / 2 ≤ len sqrt (tx - px) (ty - py))
    (hpost : (move sqrt H waypoints northMobs southMobs deltaTSec m).m_Pos = Vec2.fin qx qy) :
    (m.m_Stats.size + t.m_Stats.size) / 2 ≤ len sqrt (tx - qx) (ty - qy) := by
  have hc := (chaseTarget_eq_some_iff H m t).mpr ⟨ht, hside⟩
  rw [move_pos_chase sqrt H waypoints northMobs southMobs deltaTSec m t hc,
    moveRemaining_chase H waypoints m t px py tx ty hc hpos htpos hfar, hpos] at hpost
  generalize (moveSteered sqrt H waypoints northMobs southMobs deltaTSec m).m_velocity.scale
    (Flt.fin deltaTSec) = offset at hpost
  generalize hr : (m.m_Stats.size + t.m_Stats.size) / 2 = r at hpost hfar ⊢
  have key : ∀ ux uy : K, len sqrt ux uy ≤ len sqrt (tx - px) (ty - py) - r →
      qx = px + ux → qy = py + uy → r ≤ len sqrt (tx - qx) (ty - qy) := by
    intro ux uy hlen hx hy
    have := len_sub_step hs tx ty px py ux uy
    rw [hx, hy]
    linarith
  split_ifs at hpost with hle
  · obtain ⟨L, R, hL, hR, hLR⟩ := Flt.le_eq_true hle
    cases hR
    obtain ⟨ox, oy, rfl, rfl⟩ := Vec2.length_eq_fin hL
    have hx := congrArg Vec2.x hpost
    have hy := congrArg Vec2.y hpost
    simp only [Vec2.add_x, Vec2.add_y, Vec2.fin_x, Vec2.fin_y, Flt.fin_add_fin,
      Flt.fin.injEq] at hx hy
    exact key ox oy hLR hx.symm hy.symm
  · have hx := congrArg Vec2.x hpost
    have hy := congrArg Vec2.y hpost
    simp only [Vec2.add_x, Vec2.add_y, Vec2.fin_x, Vec2.fin_y, Vec2.scale, Vec2.sdiv] at hx hy
    obtain ⟨_, ux, _, hux, hqx⟩ := Flt.add_eq_fin hx
    obtain ⟨_, uy, _, huy, hqy⟩ := Flt.add_eq_fin hy
    rename_i a1 a2 a3 a4
    obtain ⟨cx, r1, hcx, hr1, hux2⟩ := Flt.mul_eq_fin hux
    obtain ⟨cy, r2, hcy, hr2, huy2⟩ := Flt.mul_eq_fin huy
    cases hr1
    cases hr2
    obtain ⟨ox, l, hox, hl, hl0, hcx2⟩ := Flt.div_eq_fin hcx
    obtain ⟨oy, l2, hoy, hl2, _, hcy2⟩ := Flt.div_eq_fin hcy
    rw [hl] at hl2
    cases hl2
    obtain ⟨ox2, oy2, hoff, hlen⟩ := Vec2.length_eq_fin hl
    have hox2 : ox2 = ox := by
      have := congrArg Vec2.x hoff
      rw [hox] at this
      simpa using this.symm
    have hoy2 : oy2 = oy := by
      have := congrArg Vec2.y hoff
      rw [hoy] at this
      simpa using this.symm
    subst hox2 hoy2
    have hrem : 0 ≤ len sqrt (tx - px) (ty - py) - r := by linarith
    have hunit := len_unit_scale hs ox2 oy2 _ hrem (by rw [← hlen]; exact hl0)
    rw [← hlen, ← hcx2, ← hcy2, ← hux2, ← huy2] at hunit
    refine key ux uy (le_of_eq hunit) ?_ ?_
    · have e1 : (Flt.fin px : Flt K) = Flt.fin a1 := by assumption
      cases e1
      exact hqx
    · have e1 : (Flt.fin py : Flt K) = Flt.fin a3 := by assumption
      cases e1
      exact hqy

/-- C6 amended, at a concrete input: `exScenario`, 5 units from its target with
`(sizeA + sizeB) / 2 = 1`, advances to `(0, 2)` and is then 3 units from the target. -/
theorem move_chase_no_overshoot_witness :
    ((exScenario : Mob ℝ).m_Stats.size + 1) / 2 ≤ len Real.sqrt (0 - 0) (5 - 2) :=
  move_chase_no_overshoot isSqrt_real 100 [] [] [] 1 (exScenario : Mob ℝ)
    ⟨1, Vec2.fin 0 5, ⟨2, 1, 1⟩⟩ 0 0 0 5 0 2 rfl (by norm_num [exScenario]) rfl rfl
    (by
      have h : len Real.sqrt (0 - 0) (5 - 0) = 5 :=
        isSqrt_real.eq_of_mul_self (by norm_num) (by norm_num)
      rw [h]
      norm_num [exScenario])
    (move_scenario_eval isSqrt_real)

end Chase

end BB

namespace BB

section MoveClaims

/-- C5 (distance clamp), at a failing input: a north mob at `(0, 0)` of speed 10, with
waypoints at `(0, 9)` and `(0, 100)`, no target and empty rosters, ends the tick of one
second at `(0, 18)`: 18 units from where it started, more than `speed × deltaTime = 10`.
The second step reuses `distanceRemaining` for its length. -/
theorem move_two_legs_exceeds_clamp :
    (exMob : Mob ℝ).m_Pos = Vec2.fin 0 0 ∧
    (move Real.sqrt 100 [Vec2.fin 0 9, Vec2.fin 0 100] [] [] 1 exMob).m_Pos = Vec2.fin 0 18 ∧
    (exMob : Mob ℝ).m_Stats.speed * 1 < len Real.sqrt (18 - 0) (0 - 0) := by
  refine ⟨rfl, by rw [move_two_legs_eval isSqrt_real], ?_⟩
  have h : len Real.sqrt (18 - 0) (0 - 0) = 18 :=
    isSqrt_real.eq_of_mul_self (by norm_num) (by norm_num)
  rw [h]
  norm_num [exMob]

/-- C6, as stated, fails: a mob that starts the tick inside the melee allowance of the
target it chases (`exChaser`, 1 unit from a target with `(sizeA + sizeB) / 2 = 2`) stays
where it is, so its distance to the target after the tick is 1, less than 2. -/
theorem move_chase_inside_counterexample :
    chaseTarget (100 : ℝ) exChaser = some ⟨1, Vec2.fin 0 1, ⟨1, 2, 1⟩⟩ ∧
    (move Real.sqrt 100 [] [] [] 1 (exChaser : Mob ℝ)).m_Pos = Vec2.fin 0 0 ∧
    ¬ (((exChaser : Mob ℝ).m_Stats.size + 2) / 2 ≤ len Real.sqrt (0 - 0) (1 - 0)) := by
  refine ⟨by norm_num [chaseTarget, exChaser], move_inside_eval isSqrt_real, ?_⟩
  have h : len Real.sqrt (0 - 0) (1 - 0) = 1 :=
    isSqrt_real.eq_of_mul_self (by norm_num) (by norm_num)
  rw [h]
  norm_num [exChaser]

/-- C7 (never past the destination), at a failing input: a north mob at `(0, 0)` of
speed 10 with waypoints at `(0, 9)` and `(0, 10)` reaches the first waypoint, selects the
second one, 1 unit ahead of `(0, 9)`, and then steps 9 units: it ends the tick at
`(0, 18)`, 8 units past the waypoint it is heading for. -/
theorem move_second_step_passes_waypoint :
    move Real.sqrt 100 [Vec2.fin 0 9, Vec2.fin 0 10] [] [] 1 (exMob : Mob ℝ)
      = secondLeg Real.sqrt [Vec2.fin 0 9, Vec2.fin 0 10] 1 (Flt.fin 9)
          { (exMob : Mob ℝ) with
            m_Pos := Vec2.fin 0 9, m_pWaypoint := some 0, m_velocity := Vec2.fin 0 10 } ∧
    (move Real.sqrt 100 [Vec2.fin 0 9, Vec2.fin 0 10] [] [] 1 (exMob : Mob ℝ)).m_pWaypoint
      = some 1 ∧
    derefWaypoint [Vec2.fin 0 9, Vec2.fin (0 : ℝ) 10] 1 = Vec2.fin 0 10 ∧
    (move Real.sqrt 100 [Vec2.fin 0 9, Vec2.fin 0 10] [] [] 1 (exMob : Mob ℝ)).m_Pos
      = Vec2.fin 0 18 ∧
    len Real.sqrt (0 - 0) (10 - 9) < len Real.sqrt (0 - 0) (18 - 9) := by
  refine ⟨move_past_next_first isSqrt_real, by rw [move_past_next_eval isSqrt_real], rfl,
    by rw [move_past_next_eval isSqrt_real], ?_⟩
  have h1 : len Real.sqrt (0 - 0) (10 - 9) = 1 :=
    isSqrt_real.eq_of_mul_self (by norm_num) (by norm_num)
  have h9 : len Real.sqrt (0 - 0) (18 - 9) = 9 :=
    isSqrt_real.eq_of_mul_self (by norm_num) (by norm_num)
  rw [h1, h9]
  norm_num

/-- C8 (speed cap), at failing inputs: for a mob with no target and no waypoint ahead the
destination is its own position, the direction is `0 / 0` and the velocity after the
steering loop is not a number, so the test `|velocity| <= speed` is false; and
`processCollision` of a mob at rest with a heavier entity yields the same. -/
theorem steering_speed_cap_fails :
    (moveSteered Real.sqrt 100 [] [] [] 1 (exMob : Mob ℝ)).m_velocity = ⟨Flt.nan, Flt.nan⟩ ∧
    Flt.le ((moveSteered Real.sqrt 100 [] [] [] 1 (exMob : Mob ℝ)).m_velocity.length Real.sqrt)
      (Flt.fin (exMob : Mob ℝ).m_Stats.speed) = false ∧
    (exMob : Mob ℝ).m_Stats.mass < (exHeavy : Entity ℝ).m_Stats.mass ∧
    (processCollision Real.sqrt exHeavy 1 (exMob : Mob ℝ)).m_velocity = ⟨Flt.nan, Flt.nan⟩ ∧
    Flt.le ((processCollision Real.sqrt exHeavy 1 (exMob : Mob ℝ)).m_velocity.length Real.sqrt)
      (Flt.fin (exMob : Mob ℝ).m_Stats.speed) = false := by
  refine ⟨moveSteered_nowhere_eval isSqrt_real, ?_, by norm_num [exMob, exHeavy],
    processCollision_rest_eval isSqrt_real, ?_⟩
  · rw [moveSteered_nowhere_eval isSqrt_real]; rfl
  · rw [processCollision_rest_eval isSqrt_real]; rfl

end MoveClaims

end BB

namespace BB

section Collision

variable {K : Type} [LinearOrderedField K]

/-- C9 (mass-asymmetric steering): when the mob's mass is not strictly less than the
other's, `processCollision` returns the mob unchanged; in every case it changes no field
of the mob but its velocity; the other entity is only read (it is no part of the result);
and for a lighter `a` and a heavier `b` the call of `b` against `a` leaves `b` unchanged,
so only the velocity of `a` is modified by their interaction. -/
theorem processCollision_mass_asymmetric (sqrt : K → K) (deltaTSec : K) :
    (∀ (m : Mob K) (otherMob : Entity K), ¬ m.m_Stats.mass < otherMob.m_Stats.mass →
      processCollision sqrt otherMob deltaTSec m = m) ∧
    (∀ (m : Mob K) (otherMob : Entity K), processCollision sqrt otherMob deltaTSec m =
      { m with m_velocity := (processCollision sqrt otherMob deltaTSec m).m_velocity }) ∧
    (∀ a b : Mob K, a.m_Stats.mass < b.m_Stats.mass →
      processCollision sqrt a.asEntity deltaTSec b = b ∧
      processCollision sqrt b.asEntity deltaTSec a =
        { a with m_velocity := (processCollision sqrt b.asEntity deltaTSec a).m_velocity }) := by
  refine ⟨?_, ?_, ?_⟩
  · intro m otherMob h
    simp [processCollision, h]
  · intro m otherMob
    exact processCollision_fields sqrt otherMob deltaTSec m
  · intro a b hab
    refine ⟨?_, processCollision_fields sqrt b.asEntity deltaTSec a⟩
    have h : ¬ b.m_Stats.mass < a.asEntity.m_Stats.mass := not_lt.mpr (le_of_lt hab)
    simp [processCollision, h]

/-- C9, at a concrete input: the heavier of two mobs is left unchanged by its call of
`processCollision` against the lighter one. -/
theorem processCollision_mass_asymmetric_witness :
    processCollision Real.sqrt (exMob : Mob ℝ).asEntity 1
      { (exMob : Mob ℝ) with id := 1, m_Stats := ⟨10, 1, 2⟩, m_velocity := Vec2.fin 0 10 }
      = { (exMob : Mob ℝ) with id := 1, m_Stats := ⟨10, 1, 2⟩, m_velocity := Vec2.fin 0 10 } :=
  ((processCollision_mass_asymmetric Real.sqrt (1 : ℝ)).2.2 exMob
    { (exMob : Mob ℝ) with id := 1, m_Stats := ⟨10, 1, 2⟩, m_velocity := Vec2.fin 0 10 }
    (by norm_num [exMob])).1

/-- The roster loop of `checkCollision` appends the entities of the roster that pass its
two tests, in roster order. -/
theorem scanRoster_eq_filter (sqrt : K → K) (m : Mob K) (ahead : Vec2 K)
    (l : List (Entity K)) : ∀ acc : List (Entity K),
    scanRoster sqrt m ahead l acc = acc ++ l.filter (fun e =>
      decide (e.id ≠ m.id) &&
        (EuclideanDistance sqrt ahead e.m_Pos).lt (Flt.fin (m.m_Stats.size + e.m_Stats.size))) := by
  induction l with
  | nil => intro acc; simp [scanRoster]
  | cons e rest ih =>
    intro acc
    by_cases hid : m.id = e.id
    · simp [scanRoster, hid, ih]
    · have hid2 : ¬ e.id = m.id := fun h => hid h.symm
      by_cases hd : (EuclideanDistance sqrt ahead e.m_Pos).lt
          (Flt.fin (m.m_Stats.size + e.m_Stats.size)) = true
      · simp [scanRoster, hid, hid2, hd, ih]
      · simp [scanRoster, hid, hid2, hd, ih]

/-- The projected point of a mob at a position with number coordinates and with a
velocity that is not zero. -/
theorem aheadPoint_fin {sqrt : K → K} (hs : IsSqrt sqrt) (deltaTSec : K) (m : Mob K)
    (px py vx vy : K) (hpos : m.m_Pos = Vec2.fin px py) (hvel : m.m_velocity = Vec2.fin vx vy)
    (hv : vx ≠ 0 ∨ vy ≠ 0) :
    aheadPoint sqrt deltaTSec m =
      Vec2.fin (px + vx / len sqrt vx vy * deltaTSec * 2)
        (py + vy / len sqrt vx vy * deltaTSec * 2) := by
  have hne : len sqrt vx vy ≠ 0 := by
    intro h
    obtain ⟨h1, h2⟩ := (len_eq_zero_iff hs vx vy).mp h
    rcases hv with hv | hv
    · exact hv h1
    · exact hv h2
  simp [aheadPoint, hpos, hvel, Vec2.fin_sdiv_fin _ _ hne]

/-- The overlap test of `checkCollision` against a projected point with number
coordinates is the overlap test of the spec. -/
theorem euclideanDistance_lt_eq (sqrt : K → K) (ax ay size : K) (e : Entity K) :
    (EuclideanDistance sqrt (Vec2.fin ax ay) e.m_Pos).lt (Flt.fin (size + e.m_Stats.size))
      = overlapsAhead sqrt ax ay size e := by
  unfold overlapsAhead EuclideanDistance
  rcases e with ⟨id, ⟨x, y⟩, st⟩
  cases x with
  | nan => cases y <;> simp [Flt.sqrt]
  | fin a =>
    cases y with
    | nan => simp [Flt.sqrt]
    | fin b =>
      have h := not_lt.mpr (sq_add_sq_nonneg (ax - a) (ay - b))
      simp [Flt.sqrt, len, h]

/-- C10 (collision scan result): for a mob at a position with number coordinates whose
velocity `(vx, vy)` is not zero, `checkCollision` returns exactly the entities of the north
roster followed by those of the south roster, each in roster order, that are not the mob
itself and whose position is at Euclidean distance strictly less than
`size(self) + size(other)` from `ahead = position + normalize(velocity) × deltaTime × 2`;
the mob itself is never in the result. -/
theorem checkCollision_eq_filter {sqrt : K → K} (hs : IsSqrt sqrt)
    (northMobs southMobs : List (Entity K)) (deltaTSec : K) (m : Mob K) (px py vx vy : K)
    (hpos : m.m_Pos = Vec2.fin px py) (hvel : m.m_velocity = Vec2.fin vx vy)
    (hv : vx ≠ 0 ∨ vy ≠ 0) :
    checkCollision sqrt northMobs southMobs deltaTSec m =
      (northMobs ++ southMobs).filter (fun e =>
        decide (e.id ≠ m.id) &&
          overlapsAhead sqrt (px + vx / len sqrt vx vy * deltaTSec * 2)
            (py + vy / len sqrt vx vy * deltaTSec * 2) m.m_Stats.size e) ∧
    ∀ e ∈ checkCollision sqrt northMobs southMobs deltaTSec m, e.id ≠ m.id := by
  have hmain : checkCollision sqrt northMobs southMobs deltaTSec m =
      (northMobs ++ southMobs).filter (fun e =>
        decide (e.id ≠ m.id) &&
          overlapsAhead sqrt (px + vx / len sqrt vx vy * deltaTSec * 2)
            (py + vy / len sqrt vx vy * deltaTSec * 2) m.m_Stats.size e) := by
    simp only [checkCollision, scanRoster_eq_filter, aheadPoint_fin hs deltaTSec m px py vx vy
      hpos hvel hv, euclideanDistance_lt_eq, List.nil_append, List.filter_append]
  refine ⟨hmain, ?_⟩
  intro e he
  rw [hmain] at he
  have := (List.mem_filter.mp he).2
  simp only [Bool.and_eq_true, decide_eq_true_eq] at this
  exact this.1

/-- C10, at a concrete input: a mob at `(0, 0)` moving along the lane at speed 10, with
itself and an entity at `(0, 2)` in the north roster and an entity at `(0, 50)` in the
south roster, collides with the entity at `(0, 2)` only. -/
theorem checkCollision_eq_filter_witness :
    checkCollision Real.sqrt
        [(exMob : Mob ℝ).asEntity, ⟨1, Vec2.fin 0 2, ⟨10, 1, 2⟩⟩] [⟨2, Vec2.fin 0 50, ⟨10, 1, 2⟩⟩]
        1 { (exMob : Mob ℝ) with m_velocity := Vec2.fin 0 10 }
      = [⟨1, Vec2.fin 0 2, ⟨10, 1, 2⟩⟩] := by
  have h10 : len Real.sqrt 0 10 = 10 := isSqrt_real.eq_of_mul_self (by norm_num) (by norm_num)
  have h0 : len Real.sqrt 0 0 = 0 := isSqrt_real.eq_of_mul_self (by norm_num) (by norm_num)
  have h48 : len Real.sqrt 0 (2 - 50) = 48 :=
    isSqrt_real.eq_of_mul_self (by norm_num) (by norm_num)
  rw [(checkCollision_eq_filter isSqrt_real _ _ 1
    { (exMob : Mob ℝ) with m_velocity := Vec2.fin 0 10 } 0 0 0 10 rfl rfl
    (Or.inr (by norm_num))).1]
  simp only [h10]
  simp [List.filter, overlapsAhead, Mob.asEntity, exMob, Vec2.fin, h0, h48]
  norm_num

end Collision

end BB

namespace BB

section Symmetry

variable {K : Type} [LinearOrderedField K]

/-- The filter of `pickWaypoint` gives the same verdict on the mirror image for the
other side. -/
theorem isBehind_mirrorY (c : K) (pos pt : Vec2 K) (north : Bool) :
    isBehind (mirrorY c pos) (!north) (mirrorY c pt) = isBehind pos north pt := by
  rcases pos with ⟨px, py⟩
  rcases pt with ⟨wx, wy⟩
  cases py with
  | nan => cases wy <;> cases north <;> simp [isBehind, mirrorY, Flt.gt]
  | fin a =>
    cases wy with
    | nan => cases north <;> simp [isBehind, mirrorY, Flt.gt]
    | fin b =>
      cases north
      · simp only [isBehind, mirrorY, Flt.gt, Flt.fin_sub_fin, Flt.lt_fin_fin, Bool.not_false,
          Bool.true_and, Bool.not_true, Bool.false_and, Bool.or_false, Bool.false_or,
          decide_eq_decide]
        constructor <;> intro h <;> linarith
      · simp only [isBehind, mirrorY, Flt.gt, Flt.fin_sub_fin, Flt.lt_fin_fin, Bool.not_false,
          Bool.true_and, Bool.not_true, Bool.false_and, Bool.or_false, Bool.false_or,
          decide_eq_decide]
        constructor <;> intro h <;> linarith

/-- Mirroring keeps squared distances. -/
theorem distSqr_mirrorY (c : K) (pos pt : Vec2 K) :
    (mirrorY c pos).distSqr (mirrorY c pt) = pos.distSqr pt := by
  rcases pos with ⟨px, py⟩
  rcases pt with ⟨wx, wy⟩
  cases px <;> cases py <;> cases wx <;> cases wy <;> simp [Vec2.distSqr, mirrorY]
  ring

/-- The loop of `pickWaypoint` runs the same on the mirror image for the other side. -/
theorem pickWaypointLoop_mirrorY (c : K) (pos : Vec2 K) (north : Bool) (l : List (Vec2 K)) :
    ∀ (i : Nat) (s : Flt K) (p : Option Nat),
      pickWaypointLoop (mirrorY c pos) (!north) (l.map (mirrorY c)) i s p =
        pickWaypointLoop pos north l i s p := by
  induction l with
  | nil => intro i s p; rfl
  | cons pt rest ih =>
    intro i s p
    simp only [List.map_cons, pickWaypointLoop, isBehind_mirrorY, distSqr_mirrorY, ih]

/-- C20 (team-side symmetry of waypoint selection): for every position, waypoint list and
mirror line `y = c`, `pickWaypoint` for a south-side mob on the mirrored position and the
mirrored waypoint list returns the same list index as `pickWaypoint` for a north-side mob
on the original position and list, and none exactly when that one returns none; the same
holds with the two sides exchanged. -/
theorem pickWaypoint_mirrorY (c : K) (waypoints : List (Vec2 K)) (pos : Vec2 K) :
    pickWaypoint (waypoints.map (mirrorY c)) (mirrorY c pos) false =
      pickWaypoint waypoints pos true ∧
    (pickWaypoint (waypoints.map (mirrorY c)) (mirrorY c pos) false = none ↔
      pickWaypoint waypoints pos true = none) ∧
    pickWaypoint (waypoints.map (mirrorY c)) (mirrorY c pos) true =
      pickWaypoint waypoints pos false := by
  have h1 : pickWaypoint (waypoints.map (mirrorY c)) (mirrorY c pos) false =
      pickWaypoint waypoints pos true :=
    pickWaypointLoop_mirrorY c pos true waypoints 0 _ none
  exact ⟨h1, by rw [h1], pickWaypointLoop_mirrorY c pos false waypoints 0 _ none⟩

end Symmetry

end BB

namespace BB

section Undefined

variable {K : Type} [LinearOrderedField K]

@[simp] theorem Vec2.sdiv_nanDiv (v : Vec2 K) : v.sdiv Flt.nan = ⟨Flt.nan, Flt.nan⟩ := by
  simp [Vec2.sdiv]

@[simp] theorem Vec2.nanVec_sdiv (f : Flt K) :
    (⟨Flt.nan, Flt.nan⟩ : Vec2 K).sdiv f = ⟨Flt.nan, Flt.nan⟩ := rfl

/-- The roster loop of `checkCollision` finds nothing when the projected point is not a
number. -/
theorem scanRoster_nan (sqrt : K → K) (m : Mob K) (l : List (Entity K)) :
    ∀ acc : List (Entity K), scanRoster sqrt m ⟨Flt.nan, Flt.nan⟩ l acc = acc := by
  induction l with
  | nil => intro acc; rfl
  | cons e rest ih =>
    intro acc
    by_cases hid : m.id = e.id
    · simp [scanRoster, hid, ih]
    · simp [scanRoster, hid, ih, EuclideanDistance, Flt.sqrt]

/-- The collision scan finds nothing when the projected point is not a number. -/
theorem checkCollision_of_nan (sqrt : K → K) (northMobs southMobs : List (Entity K))
    (deltaTSec : K) (m : Mob K) (h : aheadPoint sqrt deltaTSec m = ⟨Flt.nan, Flt.nan⟩) :
    checkCollision sqrt northMobs southMobs deltaTSec m = [] := by
  simp [checkCollision, h, scanRoster_nan]

/-- The quotient `m_velocity / m_velocity.length()` of a zero velocity is `0 / 0`. -/
theorem sdiv_length_zero {sqrt : K → K} (hs : IsSqrt sqrt) :
    ((Vec2.fin 0 0 : Vec2 K).length sqrt = Flt.fin 0) ∧
    (Vec2.fin 0 0 : Vec2 K).sdiv ((Vec2.fin 0 0 : Vec2 K).length sqrt) = ⟨Flt.nan, Flt.nan⟩ := by
  have h0 : len sqrt 0 0 = 0 := hs.eq_of_mul_self (le_refl 0) (by norm_num)
  simp [h0]

/-- The projected point of a mob whose velocity is zero is not a number. -/
theorem aheadPoint_of_zero {sqrt : K → K} (hs : IsSqrt sqrt) (deltaTSec : K) (m : Mob K)
    (hv : m.m_velocity = Vec2.fin 0 0) : aheadPoint sqrt deltaTSec m = ⟨Flt.nan, Flt.nan⟩ := by
  have h0 : len sqrt 0 0 = 0 := hs.eq_of_mul_self (le_refl 0) (by norm_num)
  simp [aheadPoint, hv, h0]

/-- The projected point of a mob whose velocity is not a number is not a number. -/
theorem aheadPoint_of_nan (sqrt : K → K) (deltaTSec : K) (m : Mob K)
    (hv : m.m_velocity = ⟨Flt.nan, Flt.nan⟩) :
    aheadPoint sqrt deltaTSec m = ⟨Flt.nan, Flt.nan⟩ := by
  simp [aheadPoint, hv, Vec2.sdiv]

/-- The steering loop does nothing to a mob whose velocity is not a number, whatever the
rosters hold. -/
theorem steer_of_nan (sqrt : K → K) (northMobs southMobs : List (Entity K)) (deltaTSec : K)
    (m : Mob K) (hv : m.m_velocity = ⟨Flt.nan, Flt.nan⟩) :
    steer sqrt northMobs southMobs deltaTSec m = m := by
  simp [steer, checkCollision_of_nan sqrt northMobs southMobs deltaTSec m
    (aheadPoint_of_nan sqrt deltaTSec m hv)]

/-- Heading for the own position gives a velocity that is not a number. -/
theorem headFor_self {sqrt : K → K} (hs : IsSqrt sqrt) (m : Mob K) (px py : K)
    (hpos : m.m_Pos = Vec2.fin px py) :
    (headFor sqrt (Vec2.fin px py) m).m_velocity = ⟨Flt.nan, Flt.nan⟩ := by
  have h0 : len sqrt 0 0 = 0 := hs.eq_of_mul_self (le_refl 0) (by norm_num)
  simp [headFor, hpos, h0]

/-- The tick of `exMob` with no waypoint at all, whatever the rosters hold: the position
becomes not a number. -/
theorem move_nowhere_eval {sqrt : K → K} (hs : IsSqrt sqrt)
    (northMobs southMobs : List (Entity K)) :
    (move sqrt 100 [] northMobs southMobs 1 (exMob : Mob K)).m_Pos = ⟨Flt.nan, Flt.nan⟩ := by
  have hcd : chooseDest (100 : K) [] exMob = ((exMob : Mob K), Vec2.fin 0 0) := by
    simp [chooseDest, chaseTarget, exMob, pickWaypoint, pickWaypointLoop, waypointOrPos]
  have hv := headFor_self hs (exMob : Mob K) 0 0 rfl
  have hst : moveSteered sqrt 100 [] northMobs southMobs 1 exMob
      = headFor sqrt (Vec2.fin 0 0) (exMob : Mob K) := by
    simp only [moveSteered, hcd]
    exact steer_of_nan sqrt northMobs southMobs 1 _ hv
  simp only [move, hst, hv]
  simp [headFor, exMob]

/-- The tick of `exMob` with the single waypoint `(0, 9)`: the waypoint is reached, no
next waypoint exists and the second step makes the position not a number. -/
theorem move_last_waypoint_eval {sqrt : K → K} (hs : IsSqrt sqrt) :
    (move sqrt 100 [Vec2.fin 0 9] [] [] 1 (exMob : Mob K)).m_Pos = ⟨Flt.nan, Flt.nan⟩ := by
  have h9 : len sqrt 0 9 = 9 := hs.eq_of_mul_self (by norm_num) (by norm_num)
  have h10 : len sqrt 0 10 = 10 := hs.eq_of_mul_self (by norm_num) (by norm_num)
  have h0 : len sqrt 0 0 = 0 := hs.eq_of_mul_self (le_refl 0) (by norm_num)
  have hp0 : pickWaypoint [Vec2.fin 0 9] (Vec2.fin (0 : K) 0) true = some 0 := by
    norm_num [pickWaypoint, pickWaypointLoop, isBehind, sqDist, Flt.gt, FLT_MAX]
  have hp1 : pickWaypoint [Vec2.fin 0 9] (Vec2.fin (0 : K) 9) true = none := by
    norm_num [pickWaypoint, pickWaypointLoop, isBehind, sqDist, Flt.gt, FLT_MAX]
  have hcd : chooseDest (100 : K) [Vec2.fin 0 9] exMob
      = ({ (exMob : Mob K) with m_pWaypoint := some 0 }, Vec2.fin 0 9) := by
    simp [chooseDest, chaseTarget, exMob, hp0, waypointOrPos, derefWaypoint]
  have hst : moveSteered sqrt 100 [Vec2.fin 0 9] [] [] 1 exMob
      = { (exMob : Mob K) with m_pWaypoint := some 0, m_velocity := Vec2.fin 0 10 } := by
    simp only [moveSteered, hcd, steer_nil]
    simp [headFor, exMob, h9, Vec2.fin_sdiv_fin]
  have hrem : moveRemaining sqrt 100 [Vec2.fin 0 9] (exMob : Mob K) = Flt.fin 9 := by
    simp only [moveRemaining, hcd]
    simp [chaseTarget, exMob, h9]
  simp only [move, hst, hrem]
  norm_num [exMob, h10, secondLeg, hp1, waypointOrPos, headFor, h0, Vec2.fin_sdiv_fin]

/-- The tick of `exMob` with the single waypoint `(0, 10)`, exactly `speed × deltaTime`
ahead: the offset is as long as the remaining distance, the mob lands on the waypoint and
keeps its reference to it. -/
theorem move_exact_reach_eval {sqrt : K → K} (hs : IsSqrt sqrt) :
    moveRemaining sqrt 100 [Vec2.fin 0 10] (exMob : Mob K) = Flt.fin 10 ∧
    ((moveSteered sqrt 100 [Vec2.fin 0 10] [] [] 1 (exMob : Mob K)).m_velocity.scale
      (Flt.fin 1)).length sqrt = Flt.fin 10 ∧
    move sqrt 100 [Vec2.fin 0 10] [] [] 1 (exMob : Mob K)
      = { (exMob : Mob K) with
          m_Pos := Vec2.fin 0 10, m_pWaypoint := some 0, m_velocity := Vec2.fin 0 10 } := by
  have h10 : len sqrt 0 10 = 10 := hs.eq_of_mul_self (by norm_num) (by norm_num)
  have hp0 : pickWaypoint [Vec2.fin 0 10] (Vec2.fin (0 : K) 0) true = some 0 := by
    norm_num [pickWaypoint, pickWaypointLoop, isBehind, sqDist, Flt.gt, FLT_MAX]
  have hcd : chooseDest (100 : K) [Vec2.fin 0 10] exMob
      = ({ (exMob : Mob K) with m_pWaypoint := some 0 }, Vec2.fin 0 10) := by
    simp [chooseDest, chaseTarget, exMob, hp0, waypointOrPos, derefWaypoint]
  have hst : moveSteered sqrt 100 [Vec2.fin 0 10] [] [] 1 exMob
      = { (exMob : Mob K) with m_pWaypoint := some 0, m_velocity := Vec2.fin 0 10 } := by
    simp only [moveSteered, hcd, steer_nil]
    simp [headFor, exMob, h10, Vec2.fin_sdiv_fin]
  have hrem : moveRemaining sqrt 100 [Vec2.fin 0 10] (exMob : Mob K) = Flt.fin 10 := by
    simp only [moveRemaining, hcd]
    simp [chaseTarget, exMob, h10]
  refine ⟨hrem, by rw [hst]; simp [h10], ?_⟩
  simp only [move, hst, hrem]
  norm_num [exMob, h10]

/-- The tick of `exOnTarget`, whose target is at its own position, whatever the rosters
hold: the remaining distance is 0 and the position becomes not a number. -/
theorem move_on_target_eval {sqrt : K → K} (hs : IsSqrt sqrt)
    (northMobs southMobs : List (Entity K)) :
    moveRemaining sqrt 100 [] (exOnTarget : Mob K) = Flt.fin 0 ∧
    (move sqrt 100 [] northMobs southMobs 1 (exOnTarget : Mob K)).m_Pos
      = ⟨Flt.nan, Flt.nan⟩ := by
  have h0 : len sqrt 0 0 = 0 := hs.eq_of_mul_self (le_refl 0) (by norm_num)
  have hc : chaseTarget (100 : K) exOnTarget = some ⟨1, Vec2.fin 0 0, ⟨1, 2, 1⟩⟩ := by
    norm_num [chaseTarget, exOnTarget]
  have hcd : chooseDest (100 : K) [] exOnTarget
      = ({ (exOnTarget : Mob K) with m_pWaypoint := none }, Vec2.fin 0 0) := by
    simp [chooseDest, hc]
  have hv := headFor_self hs ({ (exOnTarget : Mob K) with m_pWaypoint := none }) 0 0 rfl
  have hst : moveSteered sqrt 100 [] northMobs southMobs 1 exOnTarget
      = headFor sqrt (Vec2.fin 0 0) { (exOnTarget : Mob K) with m_pWaypoint := none } := by
    simp only [moveSteered, hcd]
    exact steer_of_nan sqrt northMobs southMobs 1 _ hv
  have hrem : moveRemaining sqrt 100 [] (exOnTarget : Mob K) = Flt.fin 0 := by
    simp only [moveRemaining, hcd, hc]
    norm_num [exOnTarget, h0, Flt.max]
  refine ⟨hrem, ?_⟩
  simp only [move, hst, hrem, hv]
  simp [headFor, exOnTarget]

end Undefined

end BB

namespace BB

section UndefinedClaims

/-- C11 (holding position when there is nowhere to go), at a failing input: the mob
`exMob` chases no target, has no stored waypoint and `pickWaypoint` returns none, so the
destination is its own position `(0, 0)`; the length of the direction vector is 0, `move`
divides by it, and the position after the tick is not a number instead of `(0, 0)`. -/
theorem move_nowhere_not_held :
    chaseTarget (100 : ℝ) exMob = none ∧
    (exMob : Mob ℝ).m_pWaypoint = none ∧
    pickWaypoint [] (exMob : Mob ℝ).m_Pos (exMob : Mob ℝ).m_bNorth = none ∧
    (chooseDest (100 : ℝ) [] exMob).2 = (exMob : Mob ℝ).m_Pos ∧
    ((chooseDest (100 : ℝ) [] exMob).2 - (exMob : Mob ℝ).m_Pos).length Real.sqrt = Flt.fin 0 ∧
    (move Real.sqrt 100 [] [] [] 1 (exMob : Mob ℝ)).m_Pos = ⟨Flt.nan, Flt.nan⟩ ∧
    (move Real.sqrt 100 [] [] [] 1 (exMob : Mob ℝ)).m_Pos ≠ (exMob : Mob ℝ).m_Pos := by
  have h0 : len Real.sqrt 0 0 = 0 := isSqrt_real.eq_of_mul_self (le_refl 0) (by norm_num)
  have hcd : chooseDest (100 : ℝ) [] exMob = ((exMob : Mob ℝ), Vec2.fin 0 0) := by
    simp [chooseDest, chaseTarget, exMob, pickWaypoint, pickWaypointLoop, waypointOrPos]
  refine ⟨by simp [chaseTarget, exMob], rfl, by simp [pickWaypoint, pickWaypointLoop],
    by rw [hcd]; rfl, by rw [hcd]; simp [exMob, h0], move_nowhere_eval isSqrt_real [] [], ?_⟩
  rw [move_nowhere_eval isSqrt_real [] []]
  simp [exMob, Vec2.fin]

/-- C12 (zero-velocity collision scan), at a failing input: for the mob `exMob`, whose
velocity is `(0, 0)`, `checkCollision` divides the velocity by its length 0; the quotient
and the projected point are not numbers. No collision is reported, also not with the
entity `exOverlap` at the mob's own position. -/
theorem checkCollision_zero_velocity_divides :
    (exMob : Mob ℝ).m_velocity = Vec2.fin 0 0 ∧
    (exMob : Mob ℝ).m_velocity.length Real.sqrt = Flt.fin 0 ∧
    (exMob : Mob ℝ).m_velocity.sdiv ((exMob : Mob ℝ).m_velocity.length Real.sqrt)
      = ⟨Flt.nan, Flt.nan⟩ ∧
    aheadPoint Real.sqrt 1 (exMob : Mob ℝ) = ⟨Flt.nan, Flt.nan⟩ ∧
    checkCollision Real.sqrt [exOverlap] [exHeavy] 1 (exMob : Mob ℝ) = [] :=
  ⟨rfl, (sdiv_length_zero isSqrt_real).1, (sdiv_length_zero isSqrt_real).2,
    aheadPoint_of_zero isSqrt_real 1 exMob rfl,
    checkCollision_of_nan Real.sqrt _ _ 1 exMob (aheadPoint_of_zero isSqrt_real 1 exMob rfl)⟩

/-- C14 (waypoint reference upkeep), at a failing input: the mob `exMob` of speed 10 with
the single waypoint `(0, 10)` has an offset exactly as long as the remaining distance; it
ends the tick on the waypoint and its waypoint reference still refers to that waypoint. -/
theorem move_exact_reach_keeps_waypoint :
    moveRemaining Real.sqrt 100 [Vec2.fin 0 10] (exMob : Mob ℝ) = Flt.fin 10 ∧
    ((moveSteered Real.sqrt 100 [Vec2.fin 0 10] [] [] 1 (exMob : Mob ℝ)).m_velocity.scale
      (Flt.fin 1)).length Real.sqrt = Flt.fin 10 ∧
    (move Real.sqrt 100 [Vec2.fin 0 10] [] [] 1 (exMob : Mob ℝ)).m_Pos = Vec2.fin 0 10 ∧
    (move Real.sqrt 100 [Vec2.fin 0 10] [] [] 1 (exMob : Mob ℝ)).m_pWaypoint = some 0 ∧
    derefWaypoint [Vec2.fin (0 : ℝ) 10] 0 = Vec2.fin 0 10 := by
  obtain ⟨h1, h2, h3⟩ := move_exact_reach_eval isSqrt_real
  exact ⟨h1, h2, by rw [h3], by rw [h3], rfl⟩

/-- C17 (no movement inside melee range), at a failing input: the mob `exOnTarget` chases
a target at its own position, at distance 0 and so within `(sizeA + sizeB) / 2 = 2`; the
remaining distance is clamped to 0, but the direction is `0 / 0` and the position after
the tick is not a number instead of `(0, 0)`. -/
theorem move_on_target_not_held :
    chaseTarget (100 : ℝ) exOnTarget = some ⟨1, Vec2.fin 0 0, ⟨1, 2, 1⟩⟩ ∧
    len Real.sqrt (0 - 0) (0 - 0) ≤ ((exOnTarget : Mob ℝ).m_Stats.size + 2) / 2 ∧
    moveRemaining Real.sqrt 100 [] (exOnTarget : Mob ℝ) = Flt.fin 0 ∧
    (move Real.sqrt 100 [] [] [] 1 (exOnTarget : Mob ℝ)).m_Pos = ⟨Flt.nan, Flt.nan⟩ ∧
    (move Real.sqrt 100 [] [] [] 1 (exOnTarget : Mob ℝ)).m_Pos ≠ (exOnTarget : Mob ℝ).m_Pos := by
  have h0 : len Real.sqrt (0 - 0) (0 - 0) = 0 :=
    isSqrt_real.eq_of_mul_self (le_refl 0) (by norm_num)
  obtain ⟨h1, h2⟩ := move_on_target_eval isSqrt_real ([] : List (Entity ℝ)) []
  refine ⟨by norm_num [chaseTarget, exOnTarget], by rw [h0]; norm_num [exOnTarget], h1, h2, ?_⟩
  rw [h2]
  simp [exOnTarget, Vec2.fin]

/-- C19 (no backward movement on waypoint legs), at a failing input: the north mob
`exMob` of speed 10, not chasing, with no stored waypoint and empty rosters, has the single
waypoint `(0, 9)` ahead; it reaches it within the tick of one second, finds no next
waypoint, and the second step makes its position not a number, so its lane-axis coordinate
after the tick is not at least the one before. -/
theorem move_last_waypoint_undefined :
    chaseTarget (100 : ℝ) exMob = none ∧
    (exMob : Mob ℝ).m_pWaypoint = none ∧
    (exMob : Mob ℝ).m_bNorth = true ∧
    0 ≤ (exMob : Mob ℝ).m_Stats.speed ∧
    (move Real.sqrt 100 [Vec2.fin 0 9] [] [] 1 (exMob : Mob ℝ)).m_Pos = ⟨Flt.nan, Flt.nan⟩ ∧
    Flt.le (exMob : Mob ℝ).m_Pos.y
      (move Real.sqrt 100 [Vec2.fin 0 9] [] [] 1 (exMob : Mob ℝ)).m_Pos.y = false := by
  refine ⟨by simp [chaseTarget, exMob], rfl, rfl, by norm_num [exMob],
    move_last_waypoint_eval isSqrt_real, ?_⟩
  rw [move_last_waypoint_eval isSqrt_real]
  simp

end UndefinedClaims

end BB

namespace BB

section SteeringFormula

variable {K : Type} [LinearOrderedField K]

/-- The value of `processCollision` for a strictly lighter mob, in terms of the numbers
involved: `L` the speed before, `(ax, ay)` the projected point, `D` its distance from the
other entity and `(ux, uy)` the velocity after the velocity change. -/
theorem processCollision_eval (sqrt : K → K) (m : Mob K) (e : Entity K) (deltaTSec : K)
    (px py vx vy ex ey L ax ay D ux uy : K)
    (hmass : m.m_Stats.mass < e.m_Stats.mass)
    (hpos : m.m_Pos = Vec2.fin px py) (hvel : m.m_velocity = Vec2.fin vx vy)
    (hepos : e.m_Pos = Vec2.fin ex ey)
    (hL : len sqrt vx vy = L) (hL0 : L ≠ 0)
    (hax : ax = px + vx / L * deltaTSec * 2) (hay : ay = py + vy / L * deltaTSec * 2)
    (hD : len sqrt (ax - ex) (ay - ey) = D) (hD0 : D ≠ 0)
    (hux : ux = vx + (ax - ex) / D * deltaTSec * 1000)
    (huy : uy = vy + (ay - ey) / D * deltaTSec * 1000) :
    (¬ m.m_Stats.speed < len sqrt ux uy →
      processCollision sqrt e deltaTSec m = { m with m_velocity := Vec2.fin ux uy }) ∧
    (m.m_Stats.speed < len sqrt ux uy → len sqrt ux uy ≠ 0 →
      processCollision sqrt e deltaTSec m = { m with m_velocity :=
        (Vec2.fin (ux / len sqrt ux uy * m.m_Stats.speed)
          (uy / len sqrt ux uy * m.m_Stats.speed)) }) := by
  have hahead : aheadPoint sqrt deltaTSec m = Vec2.fin ax ay := by
    simp [aheadPoint, hpos, hvel, hL, Vec2.fin_sdiv_fin _ _ hL0, hax, hay]
  have hu : m.m_velocity +
      ((((Vec2.fin ax ay - e.m_Pos).normalize sqrt).scale (Flt.fin deltaTSec)).scale
        (Flt.fin 1000)) = Vec2.fin ux uy := by
    simp [hvel, hepos, Vec2.normalize, hD, Vec2.fin_sdiv_fin _ _ hD0, hux, huy]
  constructor
  · intro hle
    simp only [processCollision, hmass, if_true, hahead, hu]
    simp [Flt.gt, hle]
  · intro hgt hne
    simp only [processCollision, hmass, if_true, hahead, hu]
    simp [Flt.gt, hgt, Vec2.normalize, Vec2.fin_sdiv_fin _ _ hne]

/-- C15 (steering formula): for a mob strictly lighter than the other entity, at a position
`(px, py)` with a velocity `(vx, vy)` that is not zero, and with
`ahead = position + normalize(velocity) × deltaTime × 2` different from the other's
position `(ex, ey)`, `processCollision` sets the velocity to
`u = velocity + normalize(ahead − other.position) × deltaTime × 1000` if `|u| <= speed`, and
otherwise to `normalize(u) × speed`, which for `speed ≥ 0` has length exactly `speed` and
is `u` scaled by the factor `speed / |u| ≥ 0`. -/
theorem processCollision_steering_formula {sqrt : K → K} (hs : IsSqrt sqrt) (m : Mob K)
    (e : Entity K) (deltaTSec : K) (px py vx vy ex ey ax ay ux uy : K)
    (hmass : m.m_Stats.mass < e.m_Stats.mass)
    (hpos : m.m_Pos = Vec2.fin px py) (hvel : m.m_velocity = Vec2.fin vx vy)
    (hepos : e.m_Pos = Vec2.fin ex ey)
    (hv : vx ≠ 0 ∨ vy ≠ 0)
    (hax : ax = px + vx / len sqrt vx vy * deltaTSec * 2)
    (hay : ay = py + vy / len sqrt vx vy * deltaTSec * 2)
    (hahead : ax ≠ ex ∨ ay ≠ ey)
    (hux : ux = vx + (ax - ex) / len sqrt (ax - ex) (ay - ey) * deltaTSec * 1000)
    (huy : uy = vy + (ay - ey) / len sqrt (ax - ex) (ay - ey) * deltaTSec * 1000) :
    (len sqrt ux uy ≤ m.m_Stats.speed →
      (processCollision sqrt e deltaTSec m).m_velocity = Vec2.fin ux uy) ∧
    (m.m_Stats.speed < len sqrt ux uy → 0 ≤ m.m_Stats.speed →
      (processCollision sqrt e deltaTSec m).m_velocity =
        Vec2.fin (ux / len sqrt ux uy * m.m_Stats.speed)
          (uy / len sqrt ux uy * m.m_Stats.speed) ∧
      len sqrt (ux / len sqrt ux uy * m.m_Stats.speed)
        (uy / len sqrt ux uy * m.m_Stats.speed) = m.m_Stats.speed ∧
      0 ≤ m.m_Stats.speed / len sqrt ux uy ∧
      ux / len sqrt ux uy * m.m_Stats.speed = m.m_Stats.speed / len sqrt ux uy * ux ∧
      uy / len sqrt ux uy * m.m_Stats.speed = m.m_Stats.speed / len sqrt ux uy * uy) := by
  have hL0 : len sqrt vx vy ≠ 0 := by
    intro h
    obtain ⟨h1, h2⟩ := (len_eq_zero_iff hs vx vy).mp h
    rcases hv with hv | hv
    · exact hv h1
    · exact hv h2
  have hD0 : len sqrt (ax - ex) (ay - ey) ≠ 0 := by
    intro h
    obtain ⟨h1, h2⟩ := (len_eq_zero_iff hs (ax - ex) (ay - ey)).mp h
    rcases hahead with ha | ha
    · exact ha (sub_eq_zero.mp h1)
    · exact ha (sub_eq_zero.mp h2)
  obtain ⟨hA, hB⟩ := processCollision_eval sqrt m e deltaTSec px py vx vy ex ey _ ax ay _
    ux uy hmass hpos hvel hepos rfl hL0 hax hay rfl hD0 hux huy
  constructor
  · intro hle
    rw [hA (not_lt.mpr hle)]
  · intro hgt hsp
    have hpos : 0 < len sqrt ux uy := lt_of_le_of_lt hsp hgt
    have hne : len sqrt ux uy ≠ 0 := ne_of_gt hpos
    refine ⟨by rw [hB hgt hne], len_unit_scale hs ux uy _ hsp hne,
      div_nonneg hsp (le_of_lt hpos), ?_, ?_⟩
    · field_simp
      ring
    · field_simp
      ring

/-- C15, at a concrete input: the mob `exSteered`, moving along the lane at speed 375, is
pushed to the right by the heavier `exLeft` and rescaled to its speed, and ends with the
velocity `(300, 225)`. -/
theorem processCollision_steering_formula_witness :
    (processCollision Real.sqrt exLeft (1 / 2) (exSteered : Mob ℝ)).m_velocity =
      Vec2.fin (500 / len Real.sqrt 500 375 * (exSteered : Mob ℝ).m_Stats.speed)
        (375 / len Real.sqrt 500 375 * (exSteered : Mob ℝ).m_Stats.speed) := by
  have h375 : len Real.sqrt 0 375 = 375 := isSqrt_real.eq_of_mul_self (by norm_num) (by norm_num)
  have hD : len Real.sqrt (0 - -31 / 20) (1 - 1) = 31 / 20 :=
    isSqrt_real.eq_of_mul_self (by norm_num) (by norm_num)
  have h625 : len Real.sqrt 500 375 = 625 := isSqrt_real.eq_of_mul_self (by norm_num) (by norm_num)
  exact ((processCollision_steering_formula isSqrt_real (exSteered : Mob ℝ) exLeft (1 / 2)
    0 0 0 375 (-31 / 20) 1 0 1 500 375 (by norm_num [exSteered, exLeft]) rfl rfl rfl
    (Or.inr (by norm_num)) (by rw [h375]; norm_num) (by rw [h375]; norm_num)
    (Or.inl (by norm_num)) (by rw [hD]; norm_num) (by rw [hD]; norm_num)).2
    (by rw [h625]; norm_num [exSteered]) (by norm_num [exSteered])).1

end SteeringFormula

end BB

namespace BB

section OrderDependence

variable {K : Type} [LinearOrderedField K]

theorem len_le_of_mul_self_le {sqrt : K → K} (hs : IsSqrt sqrt) (x y c : K) (hc : 0 ≤ c)
    (h : x * x + y * y ≤ c * c) : len sqrt x y ≤ c := by
  by_contra hlt
  push_neg at hlt
  have h1 := mul_self_lt_mul_self hc hlt
  rw [len_mul_self hs] at h1
  linarith

/-- The mob `exSteered` after `processCollision` with `exLeft`: pushed to the right and
rescaled to its speed. -/
theorem processCollision_left_eval {sqrt : K → K} (hs : IsSqrt sqrt) :
    processCollision sqrt exLeft (1 / 2) (exSteered : Mob K) =
      { (exSteered : Mob K) with m_velocity := Vec2.fin 300 225 } := by
  have hL : len sqrt 0 375 = (375 : K) := hs.eq_of_mul_self (by norm_num) (by norm_num)
  have hD : len sqrt ((0 : K) - -31 / 20) (1 - 1) = 31 / 20 :=
    hs.eq_of_mul_self (by norm_num) (by norm_num)
  have hU : len sqrt (500 : K) 375 = 625 := hs.eq_of_mul_self (by norm_num) (by norm_num)
  have h := (processCollision_eval sqrt (exSteered : Mob K) exLeft (1 / 2)
    0 0 0 375 (-31 / 20) 1 375 0 1 (31 / 20) 500 375 (by norm_num [exSteered, exLeft])
    rfl rfl rfl hL (by norm_num) (by norm_num) (by norm_num) hD (by norm_num)
    (by norm_num) (by norm_num)).2 (by rw [hU]; norm_num [exSteered])
    (by rw [hU]; norm_num)
  rw [h, hU]
  norm_num [exSteered]

/-- The mob `exSteered` after `processCollision` with `exRight`: pushed to the left and
rescaled to its speed. -/
theorem processCollision_right_eval {sqrt : K → K} (hs : IsSqrt sqrt) :
    processCollision sqrt exRight (1 / 2) (exSteered : Mob K) =
      { (exSteered : Mob K) with m_velocity := Vec2.fin (-300) 225 } := by
  have hL : len sqrt 0 375 = (375 : K) := hs.eq_of_mul_self (by norm_num) (by norm_num)
  have hD : len sqrt ((0 : K) - 11 / 10) (1 - 1) = 11 / 10 :=
    hs.eq_of_mul_self (by norm_num) (by norm_num)
  have hU : len sqrt (-500 : K) 375 = 625 := hs.eq_of_mul_self (by norm_num) (by norm_num)
  have h := (processCollision_eval sqrt (exSteered : Mob K) exRight (1 / 2)
    0 0 0 375 (11 / 10) 1 375 0 1 (11 / 10) (-500) 375 (by norm_num [exSteered, exRight])
    rfl rfl rfl hL (by norm_num) (by norm_num) (by norm_num) hD (by norm_num)
    (by norm_num) (by norm_num)).2 (by rw [hU]; norm_num [exSteered])
    (by rw [hU]; norm_num)
  rw [h, hU]
  norm_num [exSteered]

/-- The two orders of `processCollision` for `exSteered` with `exLeft` and `exRight`. -/
theorem processCollision_orders_eval {sqrt : K → K} (hs : IsSqrt sqrt) :
    (processCollision sqrt exRight (1 / 2)
      (processCollision sqrt exLeft (1 / 2) (exSteered : Mob K))).m_velocity
      = Vec2.fin 0 (-175) ∧
    (processCollision sqrt exLeft (1 / 2)
      (processCollision sqrt exRight (1 / 2) (exSteered : Mob K))).m_velocity
      = Vec2.fin (2400 / 17) (-175 / 17) := by
  have hL1 : len sqrt (300 : K) 225 = 375 := hs.eq_of_mul_self (by norm_num) (by norm_num)
  have hL2 : len sqrt (-300 : K) 225 = 375 := hs.eq_of_mul_self (by norm_num) (by norm_num)
  have hD1 : len sqrt ((4 / 5 : K) - 11 / 10) (3 / 5 - 1) = 1 / 2 :=
    hs.eq_of_mul_self (by norm_num) (by norm_num)
  have hD2 : len sqrt ((-4 / 5 : K) - -31 / 20) (3 / 5 - 1) = 17 / 20 :=
    hs.eq_of_mul_self (by norm_num) (by norm_num)
  have hU1 : len sqrt (0 : K) (-175) = 175 := hs.eq_of_mul_self (by norm_num) (by norm_num)
  have hU2 : len sqrt (2400 / 17 : K) (-175 / 17) ≤ 375 :=
    len_le_of_mul_self_le hs _ _ _ (by norm_num) (by norm_num)
  constructor
  · rw [processCollision_left_eval hs]
    have h := (processCollision_eval sqrt
      ({ (exSteered : Mob K) with m_velocity := Vec2.fin 300 225 }) exRight (1 / 2)
      0 0 300 225 (11 / 10) 1 375 (4 / 5) (3 / 5) (1 / 2) 0 (-175)
      (by norm_num [exSteered, exRight])
      rfl rfl rfl hL1 (by norm_num) (by norm_num) (by norm_num) hD1 (by norm_num)
      (by norm_num) (by norm_num)).1 (by rw [hU1]; norm_num [exSteered])
    rw [h]
  · rw [processCollision_right_eval hs]
    have h := (processCollision_eval sqrt
      ({ (exSteered : Mob K) with m_velocity := Vec2.fin (-300) 225 }) exLeft (1 / 2)
      0 0 (-300) 225 (-31 / 20) 1 375 (-4 / 5) (3 / 5) (17 / 20) (2400 / 17) (-175 / 17)
      (by norm_num [exSteered, exLeft])
      rfl rfl rfl hL2 (by norm_num) (by norm_num) (by norm_num) hD2 (by norm_num)
      (by norm_num) (by norm_num)).1 (by
        simp only [exSteered]
        exact not_lt.mpr hU2)
    rw [h]

/-- C18 (steering is order-dependent): there are a mob, a `deltaTime` and two heavier
entities for which `processCollision` for the first and then the second yields another
velocity than for the second and then the first: for `exSteered`, `deltaTime = 1/2`,
`exLeft` and `exRight` the velocities are `(0, -175)` and `(2400/17, -175/17)`. -/
theorem processCollision_order_dependent :
    ∃ (m : Mob ℝ) (deltaTSec : ℝ) (e1 e2 : Entity ℝ),
      m.m_Stats.mass < e1.m_Stats.mass ∧ m.m_Stats.mass < e2.m_Stats.mass ∧
      (processCollision Real.sqrt e2 deltaTSec
        (processCollision Real.sqrt e1 deltaTSec m)).m_velocity ≠
      (processCollision Real.sqrt e1 deltaTSec
        (processCollision Real.sqrt e2 deltaTSec m)).m_velocity := by
  refine ⟨exSteered, 1 / 2, exLeft, exRight, by norm_num [exSteered, exLeft],
    by norm_num [exSteered, exRight], ?_⟩
  obtain ⟨h1, h2⟩ := processCollision_orders_eval isSqrt_real
  rw [h1, h2]
  intro h
  have hx := congrArg Vec2.x h
  simp only [Vec2.fin_x, Flt.fin.injEq] at hx
  norm_num at hx

end OrderDependence

end BB

namespace BB

section Unobstructed

variable {K : Type} [LinearOrderedField K]

/-- The velocity that `move` sets toward a destination away from the mob: the unit
vector to the destination times the speed. -/
theorem headFor_fin (sqrt : K → K) (m : Mob K) (px py dx dy : K)
    (hpos : m.m_Pos = Vec2.fin px py) (hne : len sqrt (dx - px) (dy - py) ≠ 0) :
    headFor sqrt (Vec2.fin dx dy) m = { m with m_velocity :=
      (Vec2.fin ((dx - px) / len sqrt (dx - px) (dy - py) * m.m_Stats.speed)
        ((dy - py) / len sqrt (dx - px) (dy - py) * m.m_Stats.speed)) } := by
  simp [headFor, hpos, Vec2.fin_sdiv_fin _ _ hne]

/-- The steering loop does nothing when no collision is detected. -/
theorem steer_of_no_collision (sqrt : K → K) (northMobs southMobs : List (Entity K))
    (deltaTSec : K) (m : Mob K)
    (h : checkCollision sqrt northMobs southMobs deltaTSec m = []) :
    steer sqrt northMobs southMobs deltaTSec m = m := by
  simp [steer, h]

/-- The length of the offset of an unsteered velocity is `speed × deltaTime`. -/
theorem len_offset {sqrt : K → K} (hs : IsSqrt sqrt) (x y s t : K) (hst : 0 ≤ s * t)
    (hne : len sqrt x y ≠ 0) :
    len sqrt (x / len sqrt x y * s * t) (y / len sqrt x y * s * t) = s * t := by
  have h := len_unit_scale hs x y (s * t) hst hne
  rw [← h]
  congr 1 <;> ring

/-- C13 (unobstructed chase step): in a tick in which the mob chases a target (target
present, on the same side of the midline, and not at the mob's own position), no collision
is detected, and `0 ≤ speed × deltaTime ≤ |target − position| − (sizeA + sizeB) / 2`, the
position after the tick is `position + normalize(target − position) × speed × deltaTime`. -/
theorem move_chase_unobstructed {sqrt : K → K} (hs : IsSqrt sqrt) (H : K)
    (waypoints : List (Vec2 K)) (northMobs southMobs : List (Entity K)) (deltaTSec : K)
    (m : Mob K) (t : Entity K) (px py tx ty : K)
    (ht : m.m_pTarget = some t)
    (hside : m.m_Pos.y.lt (Flt.fin (H / 2)) = t.m_Pos.y.lt (Flt.fin (H / 2)))
    (hpos : m.m_Pos = Vec2.fin px py) (htpos : t.m_Pos = Vec2.fin tx ty)
    (hne : tx ≠ px ∨ ty ≠ py)
    (hno : checkCollision sqrt northMobs southMobs deltaTSec
      (headFor sqrt t.m_Pos { m with m_pWaypoint := none }) = [])
    (h0 : 0 ≤ m.m_Stats.speed * deltaTSec)
    (hle : m.m_Stats.speed * deltaTSec ≤
      len sqrt (tx - px) (ty - py) - (m.m_Stats.size + t.m_Stats.size) / 2) :
    (move sqrt H waypoints northMobs southMobs deltaTSec m).m_Pos =
      Vec2.fin (px + (tx - px) / len sqrt (tx - px) (ty - py) * m.m_Stats.speed * deltaTSec)
        (py + (ty - py) / len sqrt (tx - px) (ty - py) * m.m_Stats.speed * deltaTSec) := by
  have hc := (chaseTarget_eq_some_iff H m t).mpr ⟨ht, hside⟩
  have hd0 : len sqrt (tx - px) (ty - py) ≠ 0 := by
    intro h
    obtain ⟨h1, h2⟩ := (len_eq_zero_iff hs (tx - px) (ty - py)).mp h
    rcases hne with hn | hn
    · exact hn (sub_eq_zero.mp h1)
    · exact hn (sub_eq_zero.mp h2)
  have hcd : chooseDest H waypoints m = ({ m with m_pWaypoint := none }, t.m_Pos) := by
    simp [chooseDest, hc]
  have hst : moveSteered sqrt H waypoints northMobs southMobs deltaTSec m =
      headFor sqrt t.m_Pos { m with m_pWaypoint := none } := by
    simp only [moveSteered, hcd]
    exact steer_of_no_collision sqrt northMobs southMobs deltaTSec _ hno
  have hfar : (m.m_Stats.size + t.m_Stats.size) / 2 ≤ len sqrt (tx - px) (ty - py) := by
    linarith
  rw [move_pos_chase sqrt H waypoints northMobs southMobs deltaTSec m t hc,
    moveRemaining_chase H waypoints m t px py tx ty hc hpos htpos hfar, hst, htpos,
    headFor_fin sqrt { m with m_pWaypoint := none } px py tx ty hpos hd0]
  simp only [Vec2.fin_scale_fin, Vec2.length_fin, len_offset hs _ _ _ _ h0 hd0,
    Flt.le_fin_fin, hle, decide_True, if_true, hpos, Vec2.vfin_add_vfin]

/-- C13, at the input of the scenario: the mob `exScenario` at `(0, 0)`, with its target
5 units ahead, speed 2, sizes 1 and `deltaTime = 1`, has 4 units remaining and advances
by exactly 2 units toward the target. -/
theorem move_chase_unobstructed_witness :
    moveRemaining Real.sqrt 100 [] (exScenario : Mob ℝ) = Flt.fin 4 ∧
    (move Real.sqrt 100 [] [] [] 1 (exScenario : Mob ℝ)).m_Pos =
      Vec2.fin (0 + (0 - 0) / len Real.sqrt (0 - 0) (5 - 0) * (exScenario : Mob ℝ).m_Stats.speed * 1)
        (0 + (5 - 0) / len Real.sqrt (0 - 0) (5 - 0) * (exScenario : Mob ℝ).m_Stats.speed * 1) ∧
    (0 : ℝ) + (5 - 0) / len Real.sqrt (0 - 0) (5 - 0) * (exScenario : Mob ℝ).m_Stats.speed * 1
      = 2 := by
  have h5 : len Real.sqrt (0 - 0) (5 - 0) = 5 :=
    isSqrt_real.eq_of_mul_self (by norm_num) (by norm_num)
  have h5b : len Real.sqrt 0 5 = 5 := isSqrt_real.eq_of_mul_self (by norm_num) (by norm_num)
  refine ⟨?_, move_chase_unobstructed isSqrt_real 100 [] [] [] 1 (exScenario : Mob ℝ)
    ⟨1, Vec2.fin 0 5, ⟨2, 1, 1⟩⟩ 0 0 0 5 rfl (by norm_num [exScenario]) rfl rfl
    (Or.inr (by norm_num)) (by simp [checkCollision, scanRoster])
    (by norm_num [exScenario]) (by rw [h5]; norm_num [exScenario]), ?_⟩
  · have hc : chaseTarget (100 : ℝ) exScenario = some ⟨1, Vec2.fin 0 5, ⟨2, 1, 1⟩⟩ := by
      norm_num [chaseTarget, exScenario]
    have hcd : chooseDest (100 : ℝ) [] exScenario
        = ({ (exScenario : Mob ℝ) with m_pWaypoint := none }, Vec2.fin 0 5) := by
      simp [chooseDest, hc]
    simp only [moveRemaining, hcd, hc]
    norm_num [exScenario, h5b, Flt.max]
  · rw [h5]
    norm_num [exScenario]

end Unobstructed

end BB

namespace BB

section Snap

variable {K : Type} [LinearOrderedField K]

/-- The method `move` in terms of its first step: the first position update, followed by
the second step when the remaining distance was exceeded and a waypoint is set. -/
theorem move_eq_firstStep (sqrt : K → K) (H : K) (waypoints : List (Vec2 K))
    (northMobs southMobs : List (Entity K)) (deltaTSec : K) (m : Mob K) :
    move sqrt H waypoints northMobs southMobs deltaTSec m =
      if (((moveSteered sqrt H waypoints northMobs southMobs deltaTSec m).m_velocity.scale
          (Flt.fin deltaTSec)).length sqrt).le (moveRemaining sqrt H waypoints m) then
        moveFirstStep sqrt H waypoints northMobs southMobs deltaTSec m
      else
        match (moveFirstStep sqrt H waypoints northMobs southMobs deltaTSec m).m_pWaypoint with
        | some _ => secondLeg sqrt waypoints deltaTSec (moveRemaining sqrt H waypoints m)
            (moveFirstStep sqrt H waypoints northMobs southMobs deltaTSec m)
        | none => moveFirstStep sqrt H waypoints northMobs southMobs deltaTSec m := by
  simp only [move, moveFirstStep]
  split_ifs <;> rfl

/-- The first part of `move` changes no field of the mob but the waypoint reference. -/
theorem chooseDest_fields (H : K) (waypoints : List (Vec2 K)) (m : Mob K) :
    (chooseDest H waypoints m).1 =
      { m with m_pWaypoint := (chooseDest H waypoints m).1.m_pWaypoint } := by
  unfold chooseDest
  cases chaseTarget H m with
  | some t => rfl
  | none =>
    cases hw : m.m_pWaypoint with
    | none => simp [hw]
    | some i =>
      simp only [hw]
      cases m
      simp_all

/-- An offset of finite length comes from a finite vector to the destination, of a length
that is not zero. -/
theorem headFor_offset_fin {sqrt : K → K} (destPos : Vec2 K) (m : Mob K) (deltaTSec L : K)
    (h : ((headFor sqrt destPos m).m_velocity.scale (Flt.fin deltaTSec)).length sqrt
      = Flt.fin L) :
    ∃ a b, destPos - m.m_Pos = Vec2.fin a b ∧ len sqrt a b ≠ 0 ∧
      (headFor sqrt destPos m).m_velocity =
        Vec2.fin (a / len sqrt a b * m.m_Stats.speed) (b / len sqrt a b * m.m_Stats.speed) := by
  obtain ⟨ox, oy, hoff, _⟩ := Vec2.length_eq_fin h
  have hx := congrArg Vec2.x hoff
  have hy := congrArg Vec2.y hoff
  simp only [headFor, Vec2.scale, Vec2.sdiv, Vec2.fin_x, Vec2.fin_y] at hx hy
  obtain ⟨_, _, hx1, _, _⟩ := Flt.mul_eq_fin hx
  obtain ⟨_, _, hy1, _, _⟩ := Flt.mul_eq_fin hy
  obtain ⟨_, _, hx2, _, _⟩ := Flt.mul_eq_fin hx1
  obtain ⟨_, _, hy2, _, _⟩ := Flt.mul_eq_fin hy1
  obtain ⟨a, D, ha, hD, hD0, _⟩ := Flt.div_eq_fin hx2
  obtain ⟨b, D2, hb, _, _, _⟩ := Flt.div_eq_fin hy2
  have hvec : destPos - m.m_Pos = Vec2.fin a b := Vec2.eq_fin ha hb
  have hlen : D = len sqrt a b := by
    rw [hvec, Vec2.length_fin] at hD
    cases hD
    rfl
  subst hlen
  refine ⟨a, b, hvec, hD0, ?_⟩
  simp [headFor, hvec, Vec2.fin_sdiv_fin _ _ hD0]

/-- The clamped first step: an unsteered offset longer than the remaining distance `R`
moves the mob by `R` along the unit vector to the destination. -/
theorem firstStep_clamped {sqrt : K → K} (hs : IsSqrt sqrt) (px py a b s t R : K)
    (hne : len sqrt a b ≠ 0) (hst : 0 ≤ s * t) (hR : R < s * t) (hR0 : 0 ≤ R) :
    (if (((Vec2.fin (a / len sqrt a b * s) (b / len sqrt a b * s)).scale (Flt.fin t)).length
          sqrt).le (Flt.fin R) then
        Vec2.fin px py + (Vec2.fin (a / len sqrt a b * s) (b / len sqrt a b * s)).scale (Flt.fin t)
      else
        Vec2.fin px py +
          (((Vec2.fin (a / len sqrt a b * s) (b / len sqrt a b * s)).scale (Flt.fin t)).sdiv
            (((Vec2.fin (a / len sqrt a b * s) (b / len sqrt a b * s)).scale
              (Flt.fin t)).length sqrt)).scale (Flt.fin R)) =
      Vec2.fin (px + a / len sqrt a b * R) (py + b / len sqrt a b * R) := by
  have hL := len_offset hs a b s t hst hne
  have hst0 : s * t ≠ 0 := ne_of_gt (lt_of_le_of_lt hR0 hR)
  simp only [Vec2.fin_scale_fin, Vec2.length_fin, hL, Flt.le_fin_fin, not_le.mpr hR,
    decide_False, Bool.false_eq_true, if_false, Vec2.fin_sdiv_fin _ _ hst0, Vec2.vfin_add_vfin]
  congr 2 <;> field_simp <;> ring

end Snap

end BB

namespace BB

section SnapClaim

variable {K : Type} [LinearOrderedField K]

/-- The position after the first step of `move`. -/
theorem moveFirstStep_pos (sqrt : K → K) (H : K) (waypoints : List (Vec2 K))
    (northMobs southMobs : List (Entity K)) (deltaTSec : K) (m : Mob K) :
    (moveFirstStep sqrt H waypoints northMobs southMobs deltaTSec m).m_Pos =
      if (((moveSteered sqrt H waypoints northMobs southMobs deltaTSec m).m_velocity.scale
          (Flt.fin deltaTSec)).length sqrt).le (moveRemaining sqrt H waypoints m) then
        (moveSteered sqrt H waypoints northMobs southMobs deltaTSec m).m_Pos +
          (moveSteered sqrt H waypoints northMobs southMobs deltaTSec m).m_velocity.scale
            (Flt.fin deltaTSec)
      else
        (moveSteered sqrt H waypoints northMobs southMobs deltaTSec m).m_Pos +
          (((moveSteered sqrt H waypoints northMobs southMobs deltaTSec m).m_velocity.scale
            (Flt.fin deltaTSec)).sdiv
            (((moveSteered sqrt H waypoints northMobs southMobs deltaTSec m).m_velocity.scale
              (Flt.fin deltaTSec)).length sqrt)).scale (moveRemaining sqrt H waypoints m) := by
  simp only [moveFirstStep]
  split_ifs <;> rfl

/-- C16, amended (snap to destination): in a tick with `speed × deltaTime ≥ 0` in which
steering leaves the velocity as `move` set it (as when no collision is detected) and the
offset is longer than the remaining distance, the position after the first step lies
exactly at the destination when following a waypoint, and exactly at distance
`(sizeA + sizeB) / 2 ≥ 0` from the target when chasing a target that was at least that
far away. -/
theorem moveFirstStep_snap {sqrt : K → K} (hs : IsSqrt sqrt) (H : K)
    (waypoints : List (Vec2 K)) (northMobs southMobs : List (Entity K)) (deltaTSec : K)
    (m : Mob K)
    (hns : moveSteered sqrt H waypoints northMobs southMobs deltaTSec m =
      headFor sqrt (chooseDest H waypoints m).2 (chooseDest H waypoints m).1)
    (h0 : 0 ≤ m.m_Stats.speed * deltaTSec)
    (hlt : (moveRemaining sqrt H waypoints m).lt
      (((moveSteered sqrt H waypoints northMobs southMobs deltaTSec m).m_velocity.scale
        (Flt.fin deltaTSec)).length sqrt) = true) :
    (chaseTarget H m = none →
      (moveFirstStep sqrt H waypoints northMobs southMobs deltaTSec m).m_Pos =
        (chooseDest H waypoints m).2) ∧
    (∀ (t : Entity K) (px py tx ty : K), chaseTarget H m = some t →
      m.m_Pos = Vec2.fin px py → t.m_Pos = Vec2.fin tx ty →
      0 ≤ (m.m_Stats.size + t.m_Stats.size) / 2 →
      (m.m_Stats.size + t.m_Stats.size) / 2 ≤ len sqrt (tx - px) (ty - py) →
      ∃ qx qy, (moveFirstStep sqrt H waypoints northMobs southMobs deltaTSec m).m_Pos =
          Vec2.fin qx qy ∧
        len sqrt (tx - qx) (ty - qy) = (m.m_Stats.size + t.m_Stats.size) / 2) := by
  obtain ⟨R, L, hR, hL, hRL⟩ := Flt.lt_eq_true hlt
  have hL2 := hL
  rw [hns] at hL2
  obtain ⟨a, b, hvec, hD0, hvel⟩ := headFor_offset_fin _ _ deltaTSec L hL2
  have hm1 := chooseDest_fields H waypoints m
  have hm1pos : (chooseDest H waypoints m).1.m_Pos = m.m_Pos := by rw [hm1]
  have hm1st : (chooseDest H waypoints m).1.m_Stats = m.m_Stats := by rw [hm1]
  rw [hm1pos] at hvec
  rw [hm1st] at hvel
  have hx := congrArg Vec2.x hvec
  have hy := congrArg Vec2.y hvec
  simp only [Vec2.sub_x, Vec2.sub_y, Vec2.fin_x, Vec2.fin_y] at hx hy
  obtain ⟨dx, qx, hdx, hqx, rfl⟩ := Flt.sub_eq_fin hx
  obtain ⟨dy, qy, hdy, hqy, rfl⟩ := Flt.sub_eq_fin hy
  have hmpos : m.m_Pos = Vec2.fin qx qy := Vec2.eq_fin hqx hqy
  have hdest : (chooseDest H waypoints m).2 = Vec2.fin dx dy := Vec2.eq_fin hdx hdy
  have hm3pos : (moveSteered sqrt H waypoints northMobs southMobs deltaTSec m).m_Pos
      = Vec2.fin qx qy := by
    rw [hns]
    simp only [headFor]
    rw [hm1pos, hmpos]
  have hm3vel : (moveSteered sqrt H waypoints northMobs southMobs deltaTSec m).m_velocity
      = Vec2.fin ((dx - qx) / len sqrt (dx - qx) (dy - qy) * m.m_Stats.speed)
          ((dy - qy) / len sqrt (dx - qx) (dy - qy) * m.m_Stats.speed) := by
    rw [hns, hvel]
  have hLval : L = m.m_Stats.speed * deltaTSec := by
    rw [hm3vel] at hL
    simp only [Vec2.fin_scale_fin, Vec2.length_fin, len_offset hs _ _ _ _ h0 hD0,
      Flt.fin.injEq] at hL
    exact hL.symm
  subst hLval
  constructor
  · intro hnc
    have hRval : R = len sqrt (dx - qx) (dy - qy) := by
      have hrem : moveRemaining sqrt H waypoints m =
          ((chooseDest H waypoints m).2 - (chooseDest H waypoints m).1.m_Pos).length sqrt := by
        simp only [moveRemaining, hnc]
      rw [hrem, hm1pos, hdest, hmpos] at hR
      simp only [Vec2.vfin_sub_vfin, Vec2.length_fin, Flt.fin.injEq] at hR
      exact hR.symm
    rw [moveFirstStep_pos, hR, hm3pos, hm3vel, hdest,
      firstStep_clamped hs qx qy _ _ _ _ R hD0 h0 hRL (by rw [hRval]; exact len_nonneg hs _ _)]
    rw [hRval]
    congr 1 <;> field_simp
  · intro t px py tx ty hc hpos htpos hr hfar
    have hcd : chooseDest H waypoints m = ({ m with m_pWaypoint := none }, t.m_Pos) := by
      simp [chooseDest, hc]
    have e1 : Vec2.fin px py = Vec2.fin qx qy := by rw [← hpos, hmpos]
    have e2 : Vec2.fin tx ty = Vec2.fin dx dy := by rw [← htpos, ← hdest, hcd]
    simp only [Vec2.fin, Vec2.mk.injEq, Flt.fin.injEq] at e1 e2
    obtain ⟨rfl, rfl⟩ := e1
    obtain ⟨rfl, rfl⟩ := e2
    have hrem := @moveRemaining_chase K _ sqrt H waypoints m t px py tx ty hc hpos htpos hfar
    have hRval : R = len sqrt (tx - px) (ty - py) - (m.m_Stats.size + t.m_Stats.size) / 2 := by
      rw [hrem] at hR
      simpa using hR.symm
    refine ⟨px + (tx - px) / len sqrt (tx - px) (ty - py) * R,
      py + (ty - py) / len sqrt (tx - px) (ty - py) * R, ?_, ?_⟩
    · rw [moveFirstStep_pos, hR, hm3pos, hm3vel,
        firstStep_clamped hs px py _ _ _ _ R hD0 h0 hRL (by rw [hRval]; linarith)]
    · have hunit := len_unit_scale hs (tx - px) (ty - py) _ hr hD0
      rw [← hunit, hRval]
      congr 1 <;> field_simp <;> ring

end SnapClaim

end BB

namespace BB

section SnapExamples

variable {K : Type} [LinearOrderedField K]

/-- The steering loop for a mob like `exRunner` that heads along the lane at speed 750,
with the heavier `exObstacle` in the north roster: the obstacle is detected and the
velocity is turned to `(600, 450)`. -/
theorem steer_obstacle_eval {sqrt : K → K} (hs : IsSqrt sqrt) (m : Mob K)
    (hid : m.id = 0) (hst : m.m_Stats = ⟨750, 2, 1⟩) (hpos : m.m_Pos = Vec2.fin 0 0)
    (hvel : m.m_velocity = Vec2.fin 0 750) :
    steer sqrt [exObstacle] [] 1 m = { m with m_velocity := Vec2.fin 600 450 } := by
  have hL : len sqrt 0 750 = (750 : K) := hs.eq_of_mul_self (by norm_num) (by norm_num)
  have hD : len sqrt ((0 : K) - -3) (2 - 2) = 3 := hs.eq_of_mul_self (by norm_num) (by norm_num)
  have hU : len sqrt (1000 : K) 750 = 1250 := hs.eq_of_mul_self (by norm_num) (by norm_num)
  have hahead : aheadPoint sqrt 1 m = Vec2.fin 0 2 := by
    rw [aheadPoint_fin hs 1 m 0 0 0 750 hpos hvel (Or.inr (by norm_num)), hL]
    norm_num
  have hcheck : checkCollision sqrt [exObstacle] [] 1 m = [exObstacle] := by
    simp only [checkCollision, scanRoster_eq_filter, hahead, euclideanDistance_lt_eq,
      List.nil_append, List.filter_nil, List.append_nil]
    have h3 : len sqrt (3 : K) 0 = 3 := hs.eq_of_mul_self (by norm_num) (by norm_num)
    simp [List.filter, overlapsAhead, exObstacle, Vec2.fin, hid, hst, h3]
    norm_num
  have hproc := (processCollision_eval sqrt m exObstacle 1
    0 0 0 750 (-3) 2 750 0 2 3 1000 750 (by rw [hst]; norm_num [exObstacle])
    hpos hvel rfl hL (by norm_num) (by norm_num) (by norm_num) hD (by norm_num)
    (by norm_num) (by norm_num)).2 (by rw [hU, hst]; norm_num)
    (by rw [hU]; norm_num)
  simp only [steer, hcheck, List.foldl_cons, List.foldl_nil, hproc, hU, hst]
  norm_num

/-- The first step of `exRunner` toward the waypoint `(0, 100)` with `exObstacle` in the
north roster: the steered offset of length 750 exceeds the remaining 100, and the step
ends at `(80, 60)`. -/
theorem firstStep_steered_waypoint_eval {sqrt : K → K} (hs : IsSqrt sqrt) :
    (chooseDest (1000 : K) [Vec2.fin 0 100] exRunner).2 = Vec2.fin 0 100 ∧
    (moveRemaining sqrt 1000 [Vec2.fin 0 100] (exRunner : Mob K)).lt
      (((moveSteered sqrt 1000 [Vec2.fin 0 100] [exObstacle] [] 1
        (exRunner : Mob K)).m_velocity.scale (Flt.fin 1)).length sqrt) = true ∧
    (moveFirstStep sqrt 1000 [Vec2.fin 0 100] [exObstacle] [] 1 (exRunner : Mob K)).m_Pos
      = Vec2.fin 80 60 := by
  have h100 : len sqrt 0 100 = (100 : K) := hs.eq_of_mul_self (by norm_num) (by norm_num)
  have h750 : len sqrt (600 : K) 450 = 750 := hs.eq_of_mul_self (by norm_num) (by norm_num)
  have hp0 : pickWaypoint [Vec2.fin 0 100] (Vec2.fin (0 : K) 0) true = some 0 := by
    norm_num [pickWaypoint, pickWaypointLoop, isBehind, sqDist, Flt.gt, FLT_MAX]
  have hcd : chooseDest (1000 : K) [Vec2.fin 0 100] exRunner
      = ({ (exRunner : Mob K) with m_pWaypoint := some 0 }, Vec2.fin 0 100) := by
    simp [chooseDest, chaseTarget, exRunner, hp0, waypointOrPos, derefWaypoint]
  have hhead : headFor sqrt (Vec2.fin 0 100) { (exRunner : Mob K) with m_pWaypoint := some 0 }
      = { (exRunner : Mob K) with m_pWaypoint := some 0, m_velocity := Vec2.fin 0 750 } := by
    simp [headFor, exRunner, h100, Vec2.fin_sdiv_fin]
  have hst : moveSteered sqrt 1000 [Vec2.fin 0 100] [exObstacle] [] 1 exRunner
      = { (exRunner : Mob K) with m_pWaypoint := some 0, m_velocity := Vec2.fin 600 450 } := by
    simp only [moveSteered, hcd, hhead]
    rw [steer_obstacle_eval hs _ rfl rfl rfl rfl]
  have hrem : moveRemaining sqrt 1000 [Vec2.fin 0 100] (exRunner : Mob K) = Flt.fin 100 := by
    simp only [moveRemaining, hcd]
    simp [chaseTarget, exRunner, h100]
  refine ⟨by rw [hcd], ?_, ?_⟩
  · rw [hrem, hst]
    norm_num [h750]
  · rw [moveFirstStep_pos, hrem, hst]
    norm_num [exRunner, h750, Vec2.fin_sdiv_fin]

/-- The first step of `exRunnerChase` toward its target at `(0, 100)` with `exObstacle`
in the north roster: the steered offset of length 750 exceeds the remaining 98, and the
step ends at `(392/5, 294/5)`. -/
theorem firstStep_steered_chase_eval {sqrt : K → K} (hs : IsSqrt sqrt) :
    chaseTarget (1000 : K) exRunnerChase = some ⟨2, Vec2.fin 0 100, ⟨1, 2, 1⟩⟩ ∧
    (moveRemaining sqrt 1000 [] (exRunnerChase : Mob K)).lt
      (((moveSteered sqrt 1000 [] [exObstacle] [] 1
        (exRunnerChase : Mob K)).m_velocity.scale (Flt.fin 1)).length sqrt) = true ∧
    (moveFirstStep sqrt 1000 [] [exObstacle] [] 1 (exRunnerChase : Mob K)).m_Pos
      = Vec2.fin (392 / 5) (294 / 5) := by
  have h100 : len sqrt 0 100 = (100 : K) := hs.eq_of_mul_self (by norm_num) (by norm_num)
  have h750 : len sqrt (600 : K) 450 = 750 := hs.eq_of_mul_self (by norm_num) (by norm_num)
  have hc : chaseTarget (1000 : K) exRunnerChase = some ⟨2, Vec2.fin 0 100, ⟨1, 2, 1⟩⟩ := by
    norm_num [chaseTarget, exRunnerChase]
  have hcd : chooseDest (1000 : K) [] exRunnerChase
      = ({ (exRunnerChase : Mob K) with m_pWaypoint := none }, Vec2.fin 0 100) := by
    simp [chooseDest, hc]
  have hhead : headFor sqrt (Vec2.fin 0 100) { (exRunnerChase : Mob K) with m_pWaypoint := none }
      = { (exRunnerChase : Mob K) with m_velocity := Vec2.fin 0 750 } := by
    simp [headFor, exRunnerChase, h100, Vec2.fin_sdiv_fin]
  have hst : moveSteered sqrt 1000 [] [exObstacle] [] 1 exRunnerChase
      = { (exRunnerChase : Mob K) with m_velocity := Vec2.fin 600 450 } := by
    simp only [moveSteered, hcd, hhead]
    rw [steer_obstacle_eval hs _ rfl rfl rfl rfl]
  have hrem : moveRemaining sqrt 1000 [] (exRunnerChase : Mob K) = Flt.fin 98 := by
    simp only [moveRemaining, hcd, hc]
    norm_num [exRunnerChase, h100, Flt.max]
  refine ⟨hc, ?_, ?_⟩
  · rw [hrem, hst]
    norm_num [h750]
  · rw [moveFirstStep_pos, hrem, hst]
    norm_num [exRunnerChase, h750, Vec2.fin_sdiv_fin]

/-- The parts of the tick of `exMob` with waypoints at `(0, 9)` and `(0, 100)` and empty
rosters: the destination, the remaining distance 9 and the offset of length 10. -/
theorem two_legs_parts_eval {sqrt : K → K} (hs : IsSqrt sqrt) :
    (chooseDest (100 : K) [Vec2.fin 0 9, Vec2.fin 0 100] exMob).2 = Vec2.fin 0 9 ∧
    (moveRemaining sqrt 100 [Vec2.fin 0 9, Vec2.fin 0 100] (exMob : Mob K)).lt
      (((moveSteered sqrt 100 [Vec2.fin 0 9, Vec2.fin 0 100] [] [] 1
        (exMob : Mob K)).m_velocity.scale (Flt.fin 1)).length sqrt) = true := by
  have h9 : len sqrt 0 9 = (9 : K) := hs.eq_of_mul_self (by norm_num) (by norm_num)
  have h10 : len sqrt 0 10 = (10 : K) := hs.eq_of_mul_self (by norm_num) (by norm_num)
  have hp0 : pickWaypoint [Vec2.fin 0 9, Vec2.fin 0 100] (Vec2.fin (0 : K) 0) true = some 0 := by
    norm_num [pickWaypoint, pickWaypointLoop, isBehind, sqDist, Flt.gt, FLT_MAX]
  have hcd : chooseDest (100 : K) [Vec2.fin 0 9, Vec2.fin 0 100] exMob
      = ({ (exMob : Mob K) with m_pWaypoint := some 0 }, Vec2.fin 0 9) := by
    simp [chooseDest, chaseTarget, exMob, hp0, waypointOrPos, derefWaypoint]
  have hst : moveSteered sqrt 100 [Vec2.fin 0 9, Vec2.fin 0 100] [] [] 1 exMob
      = { (exMob : Mob K) with m_pWaypoint := some 0, m_velocity := Vec2.fin 0 10 } := by
    simp only [moveSteered, hcd, steer_nil]
    simp [headFor, exMob, h9, Vec2.fin_sdiv_fin]
  have hrem : moveRemaining sqrt 100 [Vec2.fin 0 9, Vec2.fin 0 100] (exMob : Mob K)
      = Flt.fin 9 := by
    simp only [moveRemaining, hcd]
    simp [chaseTarget, exMob, h9]
  refine ⟨by rw [hcd], ?_⟩
  rw [hrem, hst]
  norm_num [h10]

end SnapExamples

section SnapClosedClaims

/-- C16, as stated, fails for a steered offset: `exRunner`, following the waypoint
`(0, 100)`, is deflected by the heavier `exObstacle`; its offset of length 750 is longer
than the remaining 100 and its first step ends at `(80, 60)`, not at the waypoint. The
same deflection takes `exRunnerChase`, chasing a target at `(0, 100)` that is farther than
`(sizeA + sizeB) / 2 = 2`, to `(392/5, 294/5)`, which is not at distance 2 from the
target. -/
theorem moveFirstStep_steered_counterexample :
    (chaseTarget (1000 : ℝ) exRunner = none ∧
      (chooseDest (1000 : ℝ) [Vec2.fin 0 100] exRunner).2 = Vec2.fin 0 100 ∧
      (moveRemaining Real.sqrt 1000 [Vec2.fin 0 100] (exRunner : Mob ℝ)).lt
        (((moveSteered Real.sqrt 1000 [Vec2.fin 0 100] [exObstacle] [] 1
          (exRunner : Mob ℝ)).m_velocity.scale (Flt.fin 1)).length Real.sqrt) = true ∧
      (moveFirstStep Real.sqrt 1000 [Vec2.fin 0 100] [exObstacle] [] 1
        (exRunner : Mob ℝ)).m_Pos = Vec2.fin 80 60 ∧
      (Vec2.fin 80 60 : Vec2 ℝ) ≠ Vec2.fin 0 100) ∧
    (chaseTarget (1000 : ℝ) exRunnerChase = some ⟨2, Vec2.fin 0 100, ⟨1, 2, 1⟩⟩ ∧
      ((exRunnerChase : Mob ℝ).m_Stats.size + 2) / 2 ≤ len Real.sqrt (0 - 0) (100 - 0) ∧
      (moveRemaining Real.sqrt 1000 [] (exRunnerChase : Mob ℝ)).lt
        (((moveSteered Real.sqrt 1000 [] [exObstacle] [] 1
          (exRunnerChase : Mob ℝ)).m_velocity.scale (Flt.fin 1)).length Real.sqrt) = true ∧
      (moveFirstStep Real.sqrt 1000 [] [exObstacle] [] 1 (exRunnerChase : Mob ℝ)).m_Pos
        = Vec2.fin (392 / 5) (294 / 5) ∧
      len Real.sqrt (0 - 392 / 5) (100 - 294 / 5) ≠
        ((exRunnerChase : Mob ℝ).m_Stats.size + 2) / 2) := by
  obtain ⟨a1, a2, a3⟩ := firstStep_steered_waypoint_eval isSqrt_real
  obtain ⟨b1, b2, b3⟩ := firstStep_steered_chase_eval isSqrt_real
  have h100 : len Real.sqrt (0 - 0) (100 - 0) = 100 :=
    isSqrt_real.eq_of_mul_self (by norm_num) (by norm_num)
  refine ⟨⟨by simp [chaseTarget, exRunner], a1, a2, a3, ?_⟩, b1, ?_, b2, b3, ?_⟩
  · intro h
    have := congrArg Vec2.x h
    simp only [Vec2.fin_x, Flt.fin.injEq] at this
    norm_num at this
  · rw [h100]
    norm_num [exRunnerChase]
  · intro h
    have h2 := len_mul_self isSqrt_real ((0 : ℝ) - 392 / 5) (100 - 294 / 5)
    rw [h] at h2
    norm_num [exRunnerChase] at h2

/-- C16 amended, at a concrete input: `exMob` of speed 10 with waypoints at `(0, 9)` and
`(0, 100)` and empty rosters has an offset of length 10, longer than the remaining 9; its
first step ends exactly on the waypoint `(0, 9)`. -/
theorem moveFirstStep_snap_witness :
    (moveFirstStep Real.sqrt 100 [Vec2.fin 0 9, Vec2.fin 0 100] [] [] 1
      (exMob : Mob ℝ)).m_Pos = (chooseDest (100 : ℝ) [Vec2.fin 0 9, Vec2.fin 0 100] exMob).2 ∧
    (chooseDest (100 : ℝ) [Vec2.fin 0 9, Vec2.fin 0 100] exMob).2 = Vec2.fin 0 9 :=
  ⟨(moveFirstStep_snap isSqrt_real 100 [Vec2.fin 0 9, Vec2.fin 0 100] [] [] 1 (exMob : Mob ℝ)
      (by simp only [moveSteered, steer_nil]) (by norm_num [exMob])
      (two_legs_parts_eval isSqrt_real).2).1 (by simp [chaseTarget, exMob]),
    (two_legs_parts_eval isSqrt_real).1⟩

end SnapClosedClaims

end BB
